import Mathlib

/-!
Verification development for the SCOUT resume-parsing pipeline.

This file gives a shallow embedding, in Lean, of the components of the
SCOUT backend that the specification describes: the skills canonicalizer
(`app/services/skills_normalizer.py`), the DOCX and PDF structural
extractors (`app/services/docx_extractor.py`, `app/services/pdf_extractor.py`),
the profile assembler/validator (`app/services/profile_validator.py`,
`app/models/profile_schema.py`), and the extraction router
(`app/services/parser_service.py`).

Modelling conventions:
- Python strings are modelled as Lean `String`/`List Char`; the Python
  regular expressions used by the code are translated into explicit,
  executable character-list matchers specialised to each source pattern.
  Character classes follow their ASCII meaning, which is the case relevant
  to every input the code handles and every claim below.
- Python floats (confidence weights) are modelled as `Rat`; all values
  involved are short decimal literals and no claim depends on binary
  floating point rounding.
- Python dicts are modelled as insertion-ordered association lists with
  overwrite-on-repeated-key semantics; Python sets are modelled as lists
  used only through membership.
- Effectful collaborators of the router (filesystem, database, metrics
  clock) are modelled as explicit oracle inputs, and emitted metric events
  are returned as data.
-/

set_option maxRecDepth 100000

namespace Scout

/-! ## Basic character and string helpers (Python ASCII semantics) -/

/-- Python whitespace class for ASCII text: space, tab, newline, carriage
return, vertical tab, form feed.  This is the set matched by the regex
class used throughout the source and stripped by `str.strip()`. -/
def isPySpace (c : Char) : Bool :=
  c = ' ' || c = '\t' || c = '\n' || c = '\r' || c = Char.ofNat 11 || c = Char.ofNat 12

/-- ASCII digit. -/
def isPyDigit (c : Char) : Bool :=
  48 ≤ c.toNat && c.toNat ≤ 57

/-- ASCII letter, the `cased` characters relevant to `str.title`,
`str.upper`, `str.lower` on the ASCII inputs handled by the code. -/
def isPyAlpha (c : Char) : Bool :=
  (65 ≤ c.toNat && c.toNat ≤ 90) || (97 ≤ c.toNat && c.toNat ≤ 122)

/-- Regex word character `\w` in its ASCII meaning: letter, digit or
underscore. -/
def isWordChar (c : Char) : Bool :=
  isPyAlpha c || isPyDigit c || c = '_'

/-- Lowercase a character list (Python `str.lower` on ASCII text).
`Char.toLower` maps exactly the range A-Z, like CPython does for ASCII. -/
def lowerChars (l : List Char) : List Char :=
  l.map Char.toLower

/-- Python `str.lower`. -/
def pyLower (s : String) : String :=
  ⟨lowerChars s.data⟩

/-- Drop leading Python whitespace. -/
def stripLeft (l : List Char) : List Char :=
  l.dropWhile (fun c => isPySpace c)

/-- Drop trailing Python whitespace. -/
def stripRight (l : List Char) : List Char :=
  (l.reverse.dropWhile (fun c => isPySpace c)).reverse

/-- Python `str.strip()` on a character list. -/
def stripChars (l : List Char) : List Char :=
  stripRight (stripLeft l)

/-- Python `str.strip()`. -/
def pyStrip (s : String) : String :=
  ⟨stripChars s.data⟩

/-- Collapse every run of whitespace to a single space: the effect of
`re.sub(r"\s+", " ", s)`.  The boolean records whether the previous
character belonged to a whitespace run. -/
def collapseWsAux : Bool → List Char → List Char
  | _, [] => []
  | prevSpace, c :: cs =>
    if isPySpace c then
      if prevSpace then collapseWsAux true cs
      else ' ' :: collapseWsAux true cs
    else c :: collapseWsAux false cs

/-- `re.sub(r"\s+", " ", s)`. -/
def collapseWs (l : List Char) : List Char :=
  collapseWsAux false l

/-- Case-insensitive prefix test against a (lowercase) pattern. -/
def startsWithCI : List Char → List Char → Bool
  | [], _ => true
  | _ :: _, [] => false
  | p :: ps, c :: cs => p = Char.toLower c && startsWithCI ps cs

/-- Case-insensitive plain prefix of a lowercase pattern word in a string,
returning the remainder on success. -/
def dropPatCI (pat : List Char) (l : List Char) : Option (List Char) :=
  match pat, l with
  | [], rest => some rest
  | _ :: _, [] => none
  | p :: ps, c :: cs => if p = Char.toLower c then dropPatCI ps cs else none

/-- Substring containment of `pat` in `l` (Python `pat in s`). -/
def containsSub (pat : List Char) : List Char → Bool
  | [] => pat.isEmpty
  | c :: cs => (dropPatCI pat (c :: cs)).isSome || containsSub pat cs

/-- `l` ends with the word `w` (already lowercase), comparing
case-insensitively: the effect of searching `w$`. -/
def endsWithCI (w : List Char) (l : List Char) : Bool :=
  let n := l.length
  let m := w.length
  if m ≤ n then startsWithCI w (l.drop (n - m)) else false

/-- `l` ends with the word `w` and a regex word boundary `\b` stands right
before the match (start of string, or a non-word character). `w` must start
with a word character for this to model `\b w $`. -/
def endsWithWordB (w : List Char) (l : List Char) : Bool :=
  let n := l.length
  let m := w.length
  if m ≤ n then
    startsWithCI w (l.drop (n - m)) &&
      (n = m || !isWordChar (l.getD (n - m - 1) ' '))
  else false

/-- Exact full-string match against a lowercase word, case-insensitively:
the effect of `^w$`. -/
def eqCI (w : List Char) (l : List Char) : Bool :=
  startsWithCI w l && l.length = w.length

/-- Python `str.title` for ASCII: the first cased character of each run of
cased characters is uppercased, the rest of the run lowercased, uncased
characters pass through.  The boolean argument records whether the previous
character was cased. -/
def titleAux : Bool → List Char → List Char
  | _, [] => []
  | prevCased, c :: cs =>
    if isPyAlpha c then
      (if prevCased then Char.toLower c else Char.toUpper c) :: titleAux true cs
    else
      c :: titleAux false cs

/-- Python `str.title`. -/
def pyTitle (s : String) : String :=
  ⟨titleAux false s.data⟩

/-- Code-point lexicographic order on character lists: Python string
comparison. -/
def charsLe : List Char → List Char → Bool
  | [], _ => true
  | _ :: _, [] => false
  | a :: as, b :: bs =>
    if a.toNat < b.toNat then true
    else if b.toNat < a.toNat then false
    else charsLe as bs

/-- Python `<=` on strings. -/
def strLe (a b : String) : Bool :=
  charsLe a.data b.data

/-- Split a character list on a separator character (Python
`str.split(sep)` keeps empty parts). -/
def splitOnChar (sep : Char) (l : List Char) : List (List Char) :=
  match l with
  | [] => [[]]
  | c :: cs =>
    let rest := splitOnChar sep cs
    if c = sep then [] :: rest
    else
      match rest with
      | [] => [[c]]
      | r :: rs => (c :: r) :: rs

/-! ## Skills canonicalizer (`app/services/skills_normalizer.py`) -/

/-- `SkillCategoryEnum` from `app/models/profile_schema.py`. -/
inductive SkillCategoryEnum where
  | TECHNICAL | PROGRAMMING | FRAMEWORKS | DATABASES | CLOUD
  | TOOLS | LANGUAGES | SOFT_SKILLS | CERTIFICATIONS | OTHER
deriving DecidableEq, Repr

/-- The `.value` string of each `SkillCategoryEnum` member. -/
def SkillCategoryEnum.value : SkillCategoryEnum → String
  | .TECHNICAL => "technical"
  | .PROGRAMMING => "programming"
  | .FRAMEWORKS => "frameworks"
  | .DATABASES => "databases"
  | .CLOUD => "cloud"
  | .TOOLS => "tools"
  | .LANGUAGES => "languages"
  | .SOFT_SKILLS => "soft_skills"
  | .CERTIFICATIONS => "certifications"
  | .OTHER => "other"

/-- One value of the `SKILL_ALIASES` dict: canonical name, alias list,
category. -/
structure SkillInfo where
  canonical : String
  aliases : List String
  category : SkillCategoryEnum
deriving DecidableEq, Repr

/-- The static `SkillsNormalizer.SKILL_ALIASES` table, in source order.
The Python dict keys are kept for reference but the lookup tables are built
from canonical names and aliases only, exactly as `_build_lookup_tables`
does. -/
def SKILL_ALIASES : List (String × SkillInfo) := [
  ("python", ⟨"Python", ["python3", "py", "python 3", "python3.x"], .PROGRAMMING⟩),
  ("javascript", ⟨"JavaScript", ["js", "java script", "javascript es6", "es6", "node.js backend"], .PROGRAMMING⟩),
  ("typescript", ⟨"TypeScript", ["ts", "type script"], .PROGRAMMING⟩),
  ("java", ⟨"Java", ["java 8", "java 11", "java 17", "jdk"], .PROGRAMMING⟩),
  ("csharp", ⟨"C#", ["c sharp", "c#", ".net", "dotnet"], .PROGRAMMING⟩),
  ("cplusplus", ⟨"C++", ["c++", "cpp", "c plus plus"], .PROGRAMMING⟩),
  ("go", ⟨"Go", ["golang", "go lang"], .PROGRAMMING⟩),
  ("rust", ⟨"Rust", ["rust lang"], .PROGRAMMING⟩),
  ("php", ⟨"PHP", ["php7", "php8"], .PROGRAMMING⟩),
  ("ruby", ⟨"Ruby", ["ruby on rails"], .PROGRAMMING⟩),
  ("react", ⟨"React", ["reactjs", "react.js", "react js"], .FRAMEWORKS⟩),
  ("angular", ⟨"Angular", ["angularjs", "angular js", "angular 2+"], .FRAMEWORKS⟩),
  ("vue", ⟨"Vue.js", ["vuejs", "vue js", "vue"], .FRAMEWORKS⟩),
  ("nextjs", ⟨"Next.js", ["next", "nextjs", "next js"], .FRAMEWORKS⟩),
  ("django", ⟨"Django", ["django rest framework", "drf"], .FRAMEWORKS⟩),
  ("flask", ⟨"Flask", [], .FRAMEWORKS⟩),
  ("fastapi", ⟨"FastAPI", ["fast api"], .FRAMEWORKS⟩),
  ("express", ⟨"Express.js", ["expressjs", "express js"], .FRAMEWORKS⟩),
  ("spring", ⟨"Spring Framework", ["spring boot", "spring mvc"], .FRAMEWORKS⟩),
  ("postgresql", ⟨"PostgreSQL", ["postgres", "psql", "pg"], .DATABASES⟩),
  ("mysql", ⟨"MySQL", ["my sql"], .DATABASES⟩),
  ("mongodb", ⟨"MongoDB", ["mongo db", "mongo"], .DATABASES⟩),
  ("redis", ⟨"Redis", [], .DATABASES⟩),
  ("sqlite", ⟨"SQLite", ["sql lite"], .DATABASES⟩),
  ("sql", ⟨"SQL", ["structured query language"], .DATABASES⟩),
  ("aws", ⟨"Amazon Web Services", ["amazon web services", "aws cloud"], .CLOUD⟩),
  ("azure", ⟨"Microsoft Azure", ["azure cloud", "ms azure"], .CLOUD⟩),
  ("gcp", ⟨"Google Cloud Platform", ["google cloud", "google cloud platform", "gcloud"], .CLOUD⟩),
  ("docker", ⟨"Docker", ["containerization"], .TOOLS⟩),
  ("kubernetes", ⟨"Kubernetes", ["k8s", "kube"], .CLOUD⟩),
  ("git", ⟨"Git", ["version control", "git version control"], .TOOLS⟩),
  ("github", ⟨"GitHub", ["git hub"], .TOOLS⟩),
  ("gitlab", ⟨"GitLab", ["git lab"], .TOOLS⟩),
  ("jenkins", ⟨"Jenkins", ["ci/cd"], .TOOLS⟩),
  ("jira", ⟨"Jira", ["atlassian jira"], .TOOLS⟩),
  ("tensorflow", ⟨"TensorFlow", ["tensor flow", "tf"], .TECHNICAL⟩),
  ("pytorch", ⟨"PyTorch", ["torch"], .TECHNICAL⟩),
  ("pandas", ⟨"Pandas", [], .TECHNICAL⟩),
  ("numpy", ⟨"NumPy", ["num py"], .TECHNICAL⟩),
  ("scikitlearn", ⟨"Scikit-learn", ["sklearn", "scikit learn"], .TECHNICAL⟩),
  ("linux", ⟨"Linux", ["unix", "ubuntu", "centos", "red hat"], .TECHNICAL⟩),
  ("windows", ⟨"Windows", ["microsoft windows", "windows server"], .TECHNICAL⟩),
  ("macos", ⟨"macOS", ["mac os", "osx", "os x"], .TECHNICAL⟩),
  ("leadership", ⟨"Leadership", ["team leadership", "leading teams"], .SOFT_SKILLS⟩),
  ("communication", ⟨"Communication", ["verbal communication", "written communication"], .SOFT_SKILLS⟩),
  ("project_management", ⟨"Project Management", ["project mgmt", "pm"], .SOFT_SKILLS⟩),
  ("problem_solving", ⟨"Problem Solving", ["problem-solving", "troubleshooting"], .SOFT_SKILLS⟩)]

/-- Insert into an insertion-ordered dict with overwrite semantics
(Python `d[k] = v`). -/
def dictInsert (k : String) (v : SkillInfo) (d : List (String × SkillInfo)) :
    List (String × SkillInfo) :=
  if d.any (fun p => p.1 = k) then
    d.map (fun p => if p.1 = k then (k, v) else p)
  else d ++ [(k, v)]

/-- Dict lookup (Python `d.get(k)`). -/
def dictGet (k : String) (d : List (String × SkillInfo)) : Option SkillInfo :=
  (d.find? (fun p => p.1 = k)).map (fun p => p.2)

/-- `_build_lookup_tables`: for each table entry, map the lowercased
canonical name and every lowercased alias to the entry. -/
def alias_to_canonical : List (String × SkillInfo) :=
  SKILL_ALIASES.foldl
    (fun d p =>
      p.2.aliases.foldl (fun d a => dictInsert (pyLower a) p.2 d)
        (dictInsert (pyLower p.2.canonical) p.2 d))
    []

/-- The qualifier phrases of `re.sub(r"^(proficient in|experience with|knowledge of)\s+", ...)`. -/
def qualifierPhrases : List (List Char) :=
  ["proficient in".data, "experience with".data, "knowledge of".data]

/-- Strip one leading qualifier phrase followed by at least one whitespace
character, case-insensitively; at most one match is possible because the
pattern is anchored at the start. -/
def stripQualifier (l : List Char) : List Char :=
  match qualifierPhrases.findSome? (fun q =>
      match dropPatCI q l with
      | some rest =>
        if rest.headD 'x' |> isPySpace then
          some (rest.dropWhile (fun c => isPySpace c))
        else none
      | none => none) with
  | some rest => rest
  | none => l

/-- The category words of `re.sub(r"\s+(programming|development|framework|library|database)$", ...)`. -/
def trailingCategoryWords : List (List Char) :=
  ["programming".data, "development".data, "framework".data, "library".data, "database".data]

/-- Strip a trailing category word preceded by whitespace,
case-insensitively; the pattern is anchored at the end so at most one
match is possible. -/
def stripTrailingCategory (l : List Char) : List Char :=
  match trailingCategoryWords.findSome? (fun w =>
      if endsWithCI w l then
        let pre := l.take (l.length - w.length)
        if pre.reverse.headD 'x' |> isPySpace then
          some (stripRight pre)
        else none
      else none) with
  | some pre => pre
  | none => l

/-- Having just read at least one digit of a reversed `\d+(\.\d+)*`
suffix, consume the rest of the maximal parse: further digits, or a dot
that is immediately followed by a digit.  Returns the (reversed)
remainder. -/
def verAfterDigits : List Char → List Char
  | [] => []
  | c :: cs =>
    if isPyDigit c then verAfterDigits cs
    else if c = '.' then
      match cs with
      | [] => c :: cs
      | d :: ds => if isPyDigit d then verAfterDigits ds else c :: cs
    else c :: cs

/-- `re.sub(r"\s+\d+(\.\d+)*$", "", s)`: strip a trailing bare version
number preceded by whitespace.  The scan runs over the reversed list: a
maximal dotted digit-group suffix, which must be preceded by at least one
whitespace character for the pattern to match. -/
def stripVersion (l : List Char) : List Char :=
  match l.reverse with
  | c :: cs =>
    if isPyDigit c then
      let rest := verAfterDigits cs
      if rest.headD 'x' |> isPySpace then
        (rest.dropWhile (fun c => isPySpace c)).reverse
      else l
    else l
  | [] => l

/-- Split at the first parenthesised group `\([^)]*\)`: returns the
characters before the opening parenthesis and the characters after the
first closing parenthesis that follows it. -/
def splitFirstParen : List Char → Option (List Char × List Char)
  | [] => none
  | c :: rest =>
    if c = '(' then
      match rest.drop ((rest.takeWhile (fun x => x ≠ ')')).length) with
      | [] => none
      | _ :: tail => some ([], tail)
    else
      match splitFirstParen rest with
      | some (pre, post) => some (c :: pre, post)
      | none => none

/-- `re.sub(r"\s*\([^)]*\)\s*", " ", s)`: each parenthesised group,
together with surrounding whitespace, becomes a single space; scanning
resumes after the replaced stretch.  Fuel-indexed for structural
recursion; every step strictly shortens the remaining list, so fuel equal
to the length of the list is enough. -/
def removeParensFuel : Nat → List Char → List Char
  | 0, l => l
  | fuel + 1, l =>
    match splitFirstParen l with
    | some (pre, post) =>
      stripRight pre ++ ' ' :: removeParensFuel fuel (post.dropWhile (fun c => isPySpace c))
    | none => l

/-- `re.sub(r"\s*\([^)]*\)\s*", " ", s)`. -/
def removeParens (l : List Char) : List Char :=
  removeParensFuel l.length l

/-- `re.sub(r"[.,;:!?]", "", s)`: delete sentence punctuation. -/
def removePunct (l : List Char) : List Char :=
  l.filter (fun c => !(c = '.' || c = ',' || c = ';' || c = ':' || c = '!' || c = '?'))

/-- `SkillsNormalizer._clean_skill_name`, step for step:
collapse whitespace on the stripped string, strip a leading qualifier
phrase, strip a trailing category word, strip a trailing version number,
replace parenthesised asides, delete punctuation, collapse whitespace on
the stripped result. -/
def _clean_skill_name (skill : String) : String :=
  if skill = "" then "" else
  let s1 := collapseWs (stripChars skill.data)
  let s2 := stripQualifier s1
  let s3 := stripTrailingCategory s2
  let s4 := stripVersion s3
  let s5 := removeParens s4
  let s6 := removePunct s5
  ⟨collapseWs (stripChars s6)⟩

/-- `SkillsNormalizer._infer_skill_category`: the ordered first-match-wins
pattern rules over the lowercased cleaned skill, one disjunct per regex
alternative of the source. -/
def _infer_skill_category (skill : String) : SkillCategoryEnum :=
  let l := (pyLower skill).data
  -- prog_patterns: \b(lang|language)$ ; ^(c|r|matlab|scala|kotlin|swift|perl|shell)$ ; script$
  if endsWithWordB "lang".data l || endsWithWordB "language".data l
      || ["c", "r", "matlab", "scala", "kotlin", "swift", "perl", "shell"].any
          (fun w => eqCI w.data l)
      || endsWithCI "script".data l then .PROGRAMMING
  -- framework_patterns: (framework|js|\.js)$ ; ^(spring|hibernate|laravel|rails|ember|backbone)$
  else if endsWithCI "framework".data l || endsWithCI "js".data l || endsWithCI ".js".data l
      || ["spring", "hibernate", "laravel", "rails", "ember", "backbone"].any
          (fun w => eqCI w.data l) then .FRAMEWORKS
  -- db_patterns: (db|database|sql|nosql)$ ; ^(oracle|cassandra|neo4j|influx|elastic)$
  else if ["db", "database", "sql", "nosql"].any (fun w => endsWithCI w.data l)
      || ["oracle", "cassandra", "neo4j", "influx", "elastic"].any
          (fun w => eqCI w.data l) then .DATABASES
  -- cloud_patterns: (cloud|aws|azure|gcp)$ ; ^(serverless|lambda|functions)$
  else if ["cloud", "aws", "azure", "gcp"].any (fun w => endsWithCI w.data l)
      || ["serverless", "lambda", "functions"].any (fun w => eqCI w.data l) then .CLOUD
  -- tool_patterns: ^(ide|editor|vim|vscode|intellij|eclipse)$ ; (testing|test|ci|cd|devops)$
  else if ["ide", "editor", "vim", "vscode", "intellij", "eclipse"].any
          (fun w => eqCI w.data l)
      || ["testing", "test", "ci", "cd", "devops"].any (fun w => endsWithCI w.data l) then .TOOLS
  -- soft_skill_patterns: ^(teamwork|collaboration|analytical|creative)$ ; (management|planning|organization)$
  else if ["teamwork", "collaboration", "analytical", "creative"].any (fun w => eqCI w.data l)
      || ["management", "planning", "organization"].any
          (fun w => endsWithCI w.data l) then .SOFT_SKILLS
  -- cert_patterns: (certified|certification|cert)$ ; ^(pmp|cissp|cism|aws|azure|google).*cert
  else if ["certified", "certification", "cert"].any (fun w => endsWithCI w.data l)
      || ["pmp", "cissp", "cism", "aws", "azure", "google"].any (fun w =>
          match dropPatCI w.data l with
          | some rest => containsSub "cert".data (rest.takeWhile (fun c => c ≠ '\n'))
          | none => false) then .CERTIFICATIONS
  -- generic technical keywords, substring containment
  else if ["api", "rest", "http", "json", "xml", "web", "mobile", "algorithm"].any
      (fun w => containsSub w.data l) then .TECHNICAL
  else .OTHER

/-- `SkillEntrySchema` restricted to the fields the normalizer populates;
confidence scores are modelled as rationals. -/
structure SkillEntrySchema where
  name : String
  canonical_name : String
  aliases : List String
  category : Option SkillCategoryEnum
  context : Option String
  confidence_score : Rat
deriving DecidableEq, Repr

/-- `SkillsNormalizer.normalize_skill`: clean the raw string, look its
lowercased form up in the alias index; a hit yields the canonical entry
with confidence 0.95, a miss yields a title-cased canonical with an
inferred category and confidence 0.7. -/
def normalize_skill (raw_skill : String) (context : String := "") : SkillEntrySchema :=
  let cleaned_skill := _clean_skill_name raw_skill
  match dictGet (pyLower cleaned_skill) alias_to_canonical with
  | some skill_info =>
    { name := pyStrip raw_skill
      canonical_name := skill_info.canonical
      aliases := skill_info.aliases
      category := some skill_info.category
      context := if context = "" then none else some ⟨context.data.take 500⟩
      confidence_score := 95 / 100 }
  | none =>
    { name := pyStrip raw_skill
      canonical_name := pyTitle cleaned_skill
      aliases := []
      category := some (_infer_skill_category cleaned_skill)
      context := if context = "" then none else some ⟨context.data.take 500⟩
      confidence_score := 7 / 10 }

/-- Sort key of `normalize_skills_list`:
`(s.category.value if s.category else "z_other", s.canonical_name)`. -/
def skillSortKey (s : SkillEntrySchema) : String × String :=
  (match s.category with
   | some c => c.value
   | none => "z_other", s.canonical_name)

/-- Boolean comparison on sort keys: Python tuple-of-strings `<=`. -/
def skillKeyLe (a b : SkillEntrySchema) : Bool :=
  let ka := skillSortKey a
  let kb := skillSortKey b
  if ka.1 = kb.1 then strLe ka.2 kb.2
  else strLe ka.1 kb.1

/-- Insert `a` into a sorted list after every element `b` with `le b a`:
equal keys keep their existing order, which is exactly the stability
guarantee of Python `list.sort`. -/
def stableInsert (le : α → α → Bool) (a : α) : List α → List α
  | [] => [a]
  | b :: bs => if le b a then b :: stableInsert le a bs else a :: b :: bs

/-- Stable sort by a boolean comparison: elements are inserted
left-to-right into a sorted accumulator.  Any stable sort under the same
total preorder produces the same list as Python `list.sort(key=...)`. -/
def stableSortGo (le : α → α → Bool) (acc : List α) : List α → List α
  | [] => acc
  | a :: as => stableSortGo le (stableInsert le a acc) as

/-- Python `list.sort` with a comparison derived from the sort key. -/
def stableSort (le : α → α → Bool) (l : List α) : List α :=
  stableSortGo le [] l

/-- The accumulation loop of `normalize_skills_list`: skip blank raw
strings, normalize, and keep the first entry for each lowercased canonical
name. -/
def normalizeLoop (context : String) (seen : List String) :
    List String → List SkillEntrySchema
  | [] => []
  | raw :: rest =>
    if pyStrip raw = "" then normalizeLoop context seen rest
    else
      let normalized := normalize_skill raw context
      let canonical_key := pyLower normalized.canonical_name
      if canonical_key ∈ seen then normalizeLoop context seen rest
      else normalized :: normalizeLoop context (canonical_key :: seen) rest

/-- `SkillsNormalizer.normalize_skills_list`: accumulate deduplicated
normalized entries, then sort (stably) by category value and canonical
name. -/
def normalize_skills_list (raw_skills : List String) (context : String := "") :
    List SkillEntrySchema :=
  stableSort skillKeyLe (normalizeLoop context [] raw_skills)

/-! ## Structural extractors: section detection
(`app/services/docx_extractor.py`, `app/services/pdf_extractor.py`) -/

/-- Match a phrase — a list of lowercase words joined by `\s+` in the
source regexes — at the current position, case-insensitively, returning
the remainder.  Recursion is on the word list. -/
def matchPhraseAt : List (List Char) → List Char → Option (List Char)
  | [], l => some l
  | [w], l => dropPatCI w l
  | w :: ws, l =>
    match dropPatCI w l with
    | some rest =>
      let sp := rest.takeWhile (fun c => isPySpace c)
      if sp.isEmpty then none else matchPhraseAt ws (rest.drop sp.length)
    | none => none

/-- `re.search` for `\b phrase \b`: try the phrase at every position whose
left context is a word boundary, and require a word boundary after the
match.  The boolean tracks whether the previous character was a word
character. -/
def searchPhraseAux (ws : List (List Char)) : Bool → List Char → Bool
  | prevWord, l =>
    (!prevWord &&
      match matchPhraseAt ws l with
      | some rest => !isWordChar (rest.headD ' ')
      | none => false) ||
    (match l with
     | [] => false
     | c :: cs => searchPhraseAux ws (isWordChar c) cs)

/-- `re.search(r"\b(alt|...)\b", line, re.IGNORECASE)` for one pattern:
any alternative phrase occurs with word boundaries. -/
def patternSearch (alts : List (List String)) (l : List Char) : Bool :=
  alts.any (fun alt => searchPhraseAux (alt.map (fun w => w.data)) false l)

/-- A section pattern set: list of regexes, each a list of alternative
phrases, each phrase a list of words. -/
abbrev SectionPatterns := List (String × List (List (List String)))

/-- `DOCXExtractor.SECTION_PATTERNS`, in source order. -/
def SECTION_PATTERNS_DOCX : SectionPatterns := [
  ("contact", [[["contact"], ["personal", "info"], ["personal", "information"]]]),
  ("summary", [[["summary"], ["objective"], ["profile"], ["overview"], ["about"]],
               [["professional", "summary"], ["career", "summary"]],
               [["executive", "summary"]]]),
  ("experience", [[["experience"], ["employment"], ["work", "history"], ["professional", "experience"]],
                  [["work", "experience"], ["career", "history"], ["employment", "history"]]]),
  ("education", [[["education"], ["academic"], ["qualifications"], ["degrees"]],
                 [["educational", "background"], ["academic", "background"]]]),
  ("skills", [[["skills"], ["technical", "skills"], ["core", "competencies"]],
              [["technologies"], ["expertise"], ["competencies"], ["proficiencies"]]]),
  ("projects", [[["projects"], ["key", "projects"], ["notable", "projects"]],
                [["project", "experience"], ["personal", "projects"]]]),
  ("achievements", [[["achievements"], ["accomplishments"], ["awards"], ["honors"]],
                    [["recognition"], ["certifications"]]])]

/-- `PDFExtractor.SECTION_PATTERNS`: same as the DOCX table without the
`contact` entry. -/
def SECTION_PATTERNS_PDF : SectionPatterns :=
  SECTION_PATTERNS_DOCX.filter (fun p => p.1 ≠ "contact")

/-- Does any pattern of a section pattern set match the line? -/
def sectionMatches (pats : List (List (List String))) (l : List Char) : Bool :=
  pats.any (fun pat => patternSearch pat l)

/-- One content unit handed to `DOCXExtractor._detect_sections`: the
original paragraph index, the stripped text, and the `is_header` flag
computed by `_is_likely_header` at extraction time. -/
structure Para where
  index : Nat
  text : String
  is_header : Bool
deriving DecidableEq, Repr

/-- Python `str.isupper` for ASCII: at least one cased character and no
lowercase one. -/
def pyIsUpper (l : List Char) : Bool :=
  l.any (fun c => isPyAlpha c) && l.all (fun c => !(97 ≤ c.toNat && c.toNat ≤ 122))

/-- `DOCXExtractor._is_likely_header`: short text, a formatting signal
(bold or uppercase), and a match of any section pattern. -/
def _is_likely_header (text : String) (is_bold : Bool) : Bool :=
  if 50 < text.data.length then false
  else
    (is_bold || pyIsUpper text.data) &&
      SECTION_PATTERNS_DOCX.any (fun p => sectionMatches p.2 text.data)

/-- State of the section-detection scan: the insertion-ordered section
map and the current-section cursor. -/
structure ScanState where
  sections : List (String × List Nat)
  current : Option String
deriving DecidableEq, Repr

/-- `sections[name] = []` if the key is absent, keeping insertion order. -/
def smapAddKey (s : String) (m : List (String × List Nat)) : List (String × List Nat) :=
  if m.any (fun p => p.1 = s) then m else m ++ [(s, [])]

/-- `sections[name].append(i)`. -/
def smapAppend (s : String) (i : Nat) (m : List (String × List Nat)) :
    List (String × List Nat) :=
  m.map (fun p => if p.1 = s then (p.1, p.2 ++ [i]) else p)

/-- Bucket lookup in a section map (empty when the key is absent). -/
def smapGet (s : String) : List (String × List Nat) → List Nat
  | [] => []
  | p :: rest => if p.1 = s then p.2 else smapGet s rest

/-- First section whose pattern set matches the lowercased paragraph text:
the inner loop of `_detect_sections`. -/
def docxDetected (text : String) : Option String :=
  (SECTION_PATTERNS_DOCX.find? (fun p => sectionMatches p.2 (lowerChars text.data))).map
    (fun p => p.1)

/-- One step of `DOCXExtractor._detect_sections`: a pattern match on a
header paragraph switches the current section and opens (or reuses) its
bucket; otherwise, with a section open, the paragraph index is appended to
it. -/
def docxStep (st : ScanState) (p : Para) : ScanState :=
  match docxDetected p.text, p.is_header with
  | some s, true => ⟨smapAddKey s st.sections, some s⟩
  | _, _ =>
    match st.current with
    | some cur => ⟨smapAppend cur p.index st.sections, st.current⟩
    | none => st

/-- `DOCXExtractor._detect_sections`. -/
def _detect_sections (paragraphs : List Para) : List (String × List Nat) :=
  (paragraphs.foldl docxStep ⟨[], none⟩).sections

/-- Python `str.split()`: the maximal whitespace-separated words, with
leading, trailing and repeated separators ignored. -/
def pySplitWs : List Char → List (List Char)
  | [] => []
  | c :: cs =>
    let rest := pySplitWs cs
    if isPySpace c then rest
    else
      match cs with
      | [] => [[c]]
      | d :: _ =>
        if isPySpace d then [c] :: rest
        else
          match rest with
          | r :: rs => (c :: r) :: rs
          | [] => [[c]]

/-- First section whose pattern set matches the lowercased line, provided
the line has at most five whitespace-separated tokens: the inner loop of
`_detect_sections_heuristic`. -/
def pdfDetected (line : String) : Option String :=
  (SECTION_PATTERNS_PDF.find? (fun p =>
      sectionMatches p.2 (lowerChars line.data) && (pySplitWs line.data).length ≤ 5)).map
    (fun p => p.1)

/-- One step of `PDFExtractor._detect_sections_heuristic` at index `i` of
`n` lines: a detected header switches the section; otherwise a line is
appended to the open section only when `i < n - 1`. -/
def pdfStep (n : Nat) (st : ScanState) (i : Nat) (line : String) : ScanState :=
  match pdfDetected line with
  | some s => ⟨smapAddKey s st.sections, some s⟩
  | none =>
    match st.current with
    | some cur => if i < n - 1 then ⟨smapAppend cur i st.sections, st.current⟩ else st
    | none => st

/-- The indexed scan of `_detect_sections_heuristic`. -/
def pdfScanFrom (n : Nat) : Nat → ScanState → List String → ScanState
  | _, st, [] => st
  | i, st, line :: rest => pdfScanFrom n (i + 1) (pdfStep n st i line) rest

/-- `PDFExtractor._detect_sections_heuristic`. -/
def _detect_sections_heuristic (lines : List String) : List (String × List Nat) :=
  (pdfScanFrom lines.length 0 ⟨[], none⟩ lines).sections

/-! ## DOCX experience extraction (`docx_extractor.py`) -/

/-- Generic leftmost-match regex scan: attempt a match at every position,
tracking whether the previous character is a word character (for `\b`). -/
def regexScan (tryAt : Bool → List Char → Option (List Char)) :
    Bool → List Char → Option (List Char)
  | prev, l =>
    match tryAt prev l with
    | some r => some r
    | none =>
      match l with
      | [] => none
      | c :: cs => regexScan tryAt (isWordChar c) cs

/-- The month alternatives of the first `DATE_PATTERNS` regex. -/
def monthNames : List String :=
  ["jan", "feb", "mar", "apr", "may", "jun", "jul", "aug", "sep", "oct", "nov", "dec"]

/-- Attempt `\b(jan|...|dec)[a-z]*\s+\d{4}\b` at the current position.
`re.findall` on a pattern with one group returns the group, so a match
yields the three month characters as they appear in the input. -/
def tryDate1 (prev : Bool) (l : List Char) : Option (List Char) :=
  if prev then none
  else
    monthNames.findSome? (fun m =>
      match dropPatCI m.data l with
      | some rest =>
        let rest2 := rest.dropWhile (fun c => isPyAlpha c)
        let sp := rest2.takeWhile (fun c => isPySpace c)
        if sp.isEmpty then none
        else
          let after := rest2.drop sp.length
          let ds := after.takeWhile (fun c => isPyDigit c)
          if ds.length = 4 && !isWordChar ((after.drop 4).headD ' ') then
            some (l.take 3)
          else none
      | none => none)

/-- Attempt `\b\d{1,2}[/\-]\d{1,2}[/\-]\d{2,4}\b` at the current position,
returning the full matched slice. -/
def tryDate2 (prev : Bool) (l : List Char) : Option (List Char) :=
  if prev then none
  else
    let r1 := l.takeWhile (fun c => isPyDigit c)
    let t1 := l.drop r1.length
    if 1 ≤ r1.length && r1.length ≤ 2 then
      match t1 with
      | s1 :: t2 =>
        if s1 = '/' || s1 = '-' then
          let r2 := t2.takeWhile (fun c => isPyDigit c)
          let t3 := t2.drop r2.length
          if 1 ≤ r2.length && r2.length ≤ 2 then
            match t3 with
            | s2 :: t4 =>
              if s2 = '/' || s2 = '-' then
                let r3 := t4.takeWhile (fun c => isPyDigit c)
                if 2 ≤ r3.length && r3.length ≤ 4 &&
                    !isWordChar ((t4.drop r3.length).headD ' ') then
                  some (l.take (r1.length + 1 + r2.length + 1 + r3.length))
                else none
              else none
            | [] => none
          else none
        else none
      | [] => none
    else none

/-- Attempt the year-range head `\b\d{4}\s*[\-\–]\s*` shared by the third
and fourth date patterns; on success return the remainder after the second
`\s*` and the number of characters consumed. -/
def tryYearDash (l : List Char) : Option (List Char × Nat) :=
  let r1 := l.takeWhile (fun c => isPyDigit c)
  if r1.length = 4 then
    let t1 := l.drop 4
    let sp1 := t1.takeWhile (fun c => isPySpace c)
    let t2 := t1.drop sp1.length
    match t2 with
    | d :: t3 =>
      if d = '-' || d = '–' then
        let sp2 := t3.takeWhile (fun c => isPySpace c)
        some (t3.drop sp2.length, 4 + sp1.length + 1 + sp2.length)
      else none
    | [] => none
  else none

/-- Attempt `\b\d{4}\s*[\-\–]\s*\d{4}\b`, returning the full matched
slice. -/
def tryDate3 (prev : Bool) (l : List Char) : Option (List Char) :=
  if prev then none
  else
    match tryYearDash l with
    | some (rest, used) =>
      let r2 := rest.takeWhile (fun c => isPyDigit c)
      if r2.length = 4 && !isWordChar ((rest.drop 4).headD ' ') then
        some (l.take (used + 4))
      else none
    | none => none

/-- Attempt `\b\d{4}\s*[\-\–]\s*(present|current)\b`; the pattern has one
group, so `re.findall` yields the seven characters of the
`present`/`current` word as they appear in the input. -/
def tryDate4 (prev : Bool) (l : List Char) : Option (List Char) :=
  if prev then none
  else
    match tryYearDash l with
    | some (rest, _) =>
      ["present", "current"].findSome? (fun w =>
        match dropPatCI w.data rest with
        | some after =>
          if !isWordChar (after.headD ' ') then some (rest.take 7) else none
        | none => none)
    | none => none

/-- `DOCXExtractor._extract_dates`: the ordered `DATE_PATTERNS` list,
first pattern with a match wins, and within a pattern the leftmost match
wins (`re.findall(...)[0]`). -/
def _extract_dates (text : String) : Option String :=
  match regexScan tryDate1 false text.data with
  | some m => some ⟨m⟩
  | none =>
    match regexScan tryDate2 false text.data with
    | some m => some ⟨m⟩
    | none =>
      match regexScan tryDate3 false text.data with
      | some m => some ⟨m⟩
      | none =>
        match regexScan tryDate4 false text.data with
        | some m => some ⟨m⟩
        | none => none

/-- Exact (case-sensitive) prefix drop. -/
def dropPat (pat : List Char) (l : List Char) : Option (List Char) :=
  match pat, l with
  | [], rest => some rest
  | _ :: _, [] => none
  | p :: ps, c :: cs => if p = c then dropPat ps cs else none

/-- Python `s.split(sep, 1)`: split at the first occurrence of a
(non-empty) separator, if any. -/
def splitOnceAt (sep : List Char) : List Char → Option (List Char × List Char)
  | [] => none
  | c :: cs =>
    match dropPat sep (c :: cs) with
    | some rest => some ([], rest)
    | none =>
      match splitOnceAt sep cs with
      | some (a, b) => some (c :: a, b)
      | none => none

/-- The lookahead of the entry-splitting regex
`\n(?=[A-Z][^\n]*(?:,|\n))`: the next character is an uppercase letter and
the remainder contains a comma or a newline (the first such character
terminates the `[^\n]*` stretch). -/
def expBoundaryLookahead (l : List Char) : Bool :=
  match l with
  | c :: rest => 65 ≤ c.toNat && c.toNat ≤ 90 && rest.any (fun d => d = ',' || d = '\n')
  | [] => false

/-- `re.split(r"\n(?=[A-Z][^\n]*(?:,|\n))", text)`: the accumulated entry
is (reversed) in `cur`. -/
def splitExpGo (cur : List Char) : List Char → List (List Char)
  | [] => [cur.reverse]
  | c :: cs =>
    if c = '\n' && expBoundaryLookahead cs then cur.reverse :: splitExpGo [] cs
    else splitExpGo (c :: cur) cs

/-- Entry splitting of `DOCXExtractor._extract_experience`. -/
def splitExperienceEntries (l : List Char) : List (List Char) :=
  splitExpGo [] l

/-- The typed experience entry built by `_parse_experience_entry`. -/
structure ExperienceItem where
  company : String
  title : String
  duration : String
  responsibilities : List String
deriving DecidableEq, Repr

/-- The bullet characters of `^[\•\-\*\+]\s*`. -/
def bulletChars : List Char := ['•', '-', '*', '+']

/-- `re.match(r"^[\•\-\*\+]\s*", line)` succeeds. -/
def isBulletStart (l : List Char) : Bool :=
  match l with
  | c :: _ => bulletChars.contains c
  | [] => false

/-- The responsibility verbs of
`line.lower().startswith(("developed", ...))`. -/
def respVerbs : List String :=
  ["developed", "managed", "led", "built", "implemented", "improved", "collaborated"]

/-- A line is routed to responsibilities when it starts with a bullet
marker or a responsibility verb. -/
def isRespLine (l : List Char) : Bool :=
  isBulletStart l || respVerbs.any (fun v => (dropPatCI v.data l).isSome)

/-- `re.sub(r"^[\•\-\*\+]\s*", "", line)`. -/
def cleanBullet (l : List Char) : List Char :=
  match l with
  | c :: cs => if bulletChars.contains c then cs.dropWhile (fun d => isPySpace d) else l
  | [] => l

/-- `DOCXExtractor._parse_experience_entry`. -/
def _parse_experience_entry (entry : String) : Option ExperienceItem :=
  let lines := ((splitOnChar '\n' entry.data).map stripChars).filter (fun l => l ≠ [])
  if lines = [] then none
  else
    let responsibility_lines :=
      (lines.filter (fun l => isRespLine l)).filterMap (fun l =>
        let cl := cleanBullet l
        if cl = [] then none else some cl)
    let title_lines := lines.filter (fun l => !isRespLine l)
    let duration := ((lines.findSome? (fun l => _extract_dates ⟨l⟩)).getD "")
    let (title, company) :=
      match title_lines with
      | [] => ("", "")
      | first_line :: more =>
        if (splitOnceAt ['|'] first_line).isSome then
          match splitOnceAt ['|'] first_line with
          | some (a, b) => (String.mk (stripChars a), String.mk (stripChars b))
          | none => ("", "")
        else if (splitOnceAt " - ".data first_line).isSome then
          match splitOnceAt " - ".data first_line with
          | some (a, b) => (String.mk (stripChars a), String.mk (stripChars b))
          | none => ("", "")
        else if (splitOnceAt [','] first_line).isSome &&
            (_extract_dates ⟨first_line⟩).isNone then
          match splitOnceAt [','] first_line with
          | some (a, b) => (String.mk (stripChars a), String.mk (stripChars b))
          | none => ("", "")
        else
          match more with
          | second :: _ =>
            if (_extract_dates ⟨second⟩).isNone then (String.mk first_line, String.mk second)
            else (String.mk first_line, "")
          | [] => (String.mk first_line, "")
    let exp : ExperienceItem :=
      { company := company, title := title, duration := duration
        responsibilities := responsibility_lines.map String.mk }
    if exp.company ≠ "" || exp.title ≠ "" || exp.responsibilities ≠ [] then some exp
    else none

/-- `DOCXExtractor._extract_experience`: split the section text into
candidate entries, skip entries shorter than ten characters after
stripping, parse the rest. -/
def _extract_experience (text : String) : List ExperienceItem :=
  (splitExperienceEntries text.data).filterMap (fun e =>
    let entry := stripChars e
    if entry.length < 10 then none
    else _parse_experience_entry ⟨entry⟩)

/-! ## PDF heuristic extraction (`pdf_extractor.py`) -/

/-- `re.split(r"\n\n+", text)`: split on runs of two or more newlines.
`pend` counts newlines seen but not yet committed. -/
def splitNNGo (cur : List Char) (pend : Nat) : List Char → List (List Char)
  | [] =>
    if 2 ≤ pend then [cur.reverse, []]
    else if pend = 1 then [('\n' :: cur).reverse]
    else [cur.reverse]
  | c :: cs =>
    if c = '\n' then splitNNGo cur (pend + 1) cs
    else if 2 ≤ pend then cur.reverse :: splitNNGo [c] 0 cs
    else if pend = 1 then splitNNGo (c :: '\n' :: cur) 0 cs
    else splitNNGo (c :: cur) 0 cs

/-- `re.split(r"\n\n+", text)`. -/
def splitParagraphs (l : List Char) : List (List Char) :=
  splitNNGo [] 0 l

/-- A four-digit run with word boundaries on both sides starts here:
`\b\d{4}\b` at the current position (the left boundary is checked by the
caller). -/
def fourDigitBounded (l : List Char) : Bool :=
  (l.takeWhile (fun c => isPyDigit c)).length = 4 && !isWordChar ((l.drop 4).headD ' ')

/-- Lazy search for the next `\b\d{4}\b` within the same line
(`.*?` does not cross a newline): returns the offset of the first
position, after the given previous character, where a bounded four-digit
run starts. -/
def findB4 (prev : Char) (k : Nat) : List Char → Option Nat
  | [] => none
  | c :: cs =>
    if !isWordChar prev && fourDigitBounded (c :: cs) then some k
    else if c = '\n' then none
    else findB4 c (k + 1) cs

/-- Lazy search for the next `present` (case-insensitive) within the same
line. -/
def findPres (k : Nat) : List Char → Option Nat
  | [] => none
  | c :: cs =>
    if startsWithCI "present".data (c :: cs) then some k
    else if c = '\n' then none
    else findPres (k + 1) cs

/-- Attempt `\b\d{4}\b.*?\b\d{4}\b|\b\d{4}\b.*?present` at the current
position: a bounded four-digit run, then lazily the nearest second
bounded run (first alternative), or the nearest `present` (second
alternative). -/
def tryPdfDuration (prev : Bool) (l : List Char) : Option (List Char) :=
  if prev then none
  else if fourDigitBounded l then
    let rest := l.drop 4
    match findB4 '9' 0 rest with
    | some k => some (l.take (4 + k + 4))
    | none =>
      match findPres 0 rest with
      | some k => some (l.take (4 + k + 7))
      | none => none
  else none

/-- `re.search(r"\b\d{4}\b.*?\b\d{4}\b|\b\d{4}\b.*?present", line, re.IGNORECASE)`
followed by `.group().strip()`. -/
def pdfDurationSearch (line : List Char) : Option (List Char) :=
  (regexScan tryPdfDuration false line).map stripChars

/-- Attempt `\b(19|20)\d{2}\b` at the current position, returning the full
four-character match. -/
def tryYear (prev : Bool) (l : List Char) : Option (List Char) :=
  if prev then none
  else
    match l with
    | a :: b :: c :: d :: rest =>
      if (a = '1' && b = '9' || a = '2' && b = '0') && isPyDigit c && isPyDigit d &&
          !isWordChar (rest.headD ' ') then
        some [a, b, c, d]
      else none
    | _ => none

/-- `re.search(r"\b(19|20)\d{2}\b", line)`, full match. -/
def findYear (line : List Char) : Option (List Char) :=
  regexScan tryYear false line

/-- `re.search(r"\b\d{4}\b", line)` succeeds. -/
def hasBounded4Digit (line : List Char) : Bool :=
  (regexScan (fun prev l => if !prev && fourDigitBounded l then some [] else none)
    false line).isSome

/-- The experience entry built by
`PDFExtractor._parse_experience_entry_heuristic`. -/
structure PdfExpItem where
  title : String
  company : String
  duration : String
  responsibilities : List String
deriving DecidableEq, Repr

/-- `PDFExtractor._parse_experience_entry_heuristic`. -/
def _parse_experience_entry_heuristic (entry : String) : Option PdfExpItem :=
  let lines := ((splitOnChar '\n' entry.data).map stripChars).filter (fun l => l ≠ [])
  match lines with
  | [] => none
  | first_line :: _ =>
    let isCompany := ["inc", "corp", "ltd", "llc", "company"].any (fun w =>
      containsSub w.data (lowerChars first_line))
    let title := if isCompany then "" else String.mk first_line
    let company := if isCompany then String.mk first_line else ""
    let duration :=
      match (lines.take 3).findSome? (fun l => pdfDurationSearch l) with
      | some m => String.mk m
      | none => ""
    let responsibilities :=
      (lines.drop 1).filterMap (fun l =>
        if l ≠ [] && !hasBounded4Digit l then
          let cl := cleanBullet l
          if cl ≠ [] then some (String.mk cl) else none
        else none)
    let exp : PdfExpItem :=
      { title := title, company := company, duration := duration
        responsibilities := responsibilities }
    if exp.title ≠ "" || exp.company ≠ "" then some exp else none

/-- `PDFExtractor._extract_experience_heuristic`: paragraph-split entries,
entries shorter than 20 characters skipped, result limited to 10. -/
def _extract_experience_heuristic (text : String) : List PdfExpItem :=
  ((splitParagraphs text.data).filterMap (fun e =>
    let entry := stripChars e
    if entry.length < 20 then none
    else _parse_experience_entry_heuristic ⟨entry⟩)).take 10

/-- The education entry built by the heuristic education scan (the same
shape the DOCX extractor produces). -/
structure EduItem where
  degree : String
  institution : String
  year : String
  details : List String
deriving DecidableEq, Repr

/-- Degree keywords of `_extract_education_heuristic`. -/
def degreeKeywords : List String :=
  ["bachelor", "master", "phd", "degree", "b.s.", "m.s.", "b.a.", "m.a."]

/-- Institution keywords of `_extract_education_heuristic`. -/
def institutionKeywordsPdf : List String := ["university", "college", "institute"]

/-- The line scan of `PDFExtractor._extract_education_heuristic`,
carrying the entry under construction. -/
def eduScan (cur : Option EduItem) : List (List Char) → List EduItem
  | [] => (match cur with | some e => [e] | none => [])
  | line :: rest =>
    let l := stripChars line
    if l = [] then eduScan cur rest
    else
      let low := lowerChars l
      let has_degree := degreeKeywords.any (fun k => containsSub k.data low)
      let has_institution := institutionKeywordsPdf.any (fun k => containsSub k.data low)
      if has_degree || has_institution then
        (match cur with | some e => [e] | none => []) ++
          eduScan (some
            { degree := if has_degree then String.mk l else ""
              institution := if has_institution then String.mk l else ""
              year := (match findYear l with | some y => String.mk y | none => "")
              details := [] }) rest
      else
        match cur with
        | some e => eduScan (some { e with details := e.details ++ [String.mk l] }) rest
        | none => eduScan none rest

/-- `PDFExtractor._extract_education_heuristic`, limited to 5 entries. -/
def _extract_education_heuristic (text : String) : List EduItem :=
  (eduScan none (splitOnChar '\n' text.data)).take 5

/-- The delimiter class of `re.split(r"[,;\n\|•\-\*\+]+", text)`. -/
def skillDelims : List Char := [',', ';', '\n', '|', '•', '-', '*', '+']

mutual
/-- `re.split(r"[,;\n\|•\-\*\+]+", text)`: accumulate the current part,
finish it at a delimiter. -/
def splitDelimsGo (cur : List Char) : List Char → List (List Char)
  | [] => [cur.reverse]
  | c :: cs =>
    if skillDelims.contains c then cur.reverse :: skipDelims cs
    else splitDelimsGo (c :: cur) cs
/-- Skip the rest of a delimiter run, then start the next part. -/
def skipDelims : List Char → List (List Char)
  | [] => [[]]
  | c :: cs =>
    if skillDelims.contains c then skipDelims cs
    else splitDelimsGo [c] cs
end

/-- One alternative of the header regex `^(skills?|technologies?):?\s*`
matched at a line start: the matched word (longest alternative first, the
way the regex engine resolves `s?`), an optional colon, then a greedy
whitespace run.  Returns the last consumed character (to decide whether
the position after the match is again a line start) and the remainder. -/
def tryHeaderMatch (l : List Char) : Option (Char × List Char) :=
  ["skills", "skill", "technologies", "technologie"].findSome? (fun w =>
    match dropPatCI w.data l with
    | some r1 =>
      let (lc1, r2) :=
        match r1 with
        | ':' :: t => (':', t)
        | _ => ('s', r1)
      let ws := r2.takeWhile (fun c => isPySpace c)
      if ws.isEmpty then some (lc1, r2)
      else some (ws.getLastD ' ', r2.drop ws.length)
    | none => none)

/-- `re.sub(r"^(skills?|technologies?):?\s*", "", text, flags=re.IGNORECASE | re.MULTILINE)`:
remove the header at the start of the text and after every newline of the
original text; fuel-indexed (each step consumes at least one character). -/
def skillHeaderFuel : Nat → Bool → List Char → List Char
  | 0, _, l => l
  | fuel + 1, atStart, l =>
    match l with
    | [] => []
    | c :: cs =>
      if atStart then
        match tryHeaderMatch (c :: cs) with
        | some (lastC, rest) => skillHeaderFuel fuel (lastC = '\n') rest
        | none => c :: skillHeaderFuel fuel (c = '\n') cs
      else c :: skillHeaderFuel fuel (c = '\n') cs

/-- `PDFExtractor._extract_skills_heuristic`: strip section headers,
split on the delimiter class, keep stripped parts of length 2 to 50, and
limit to 20 skills. -/
def _extract_skills_heuristic (text : String) : List String :=
  let cleaned := skillHeaderFuel text.data.length true text.data
  (((splitDelimsGo [] cleaned).map stripChars).filterMap (fun s =>
    if 2 ≤ s.length && s.length ≤ 50 then some (String.mk s) else none)).take 20

/-- The project entry built by `_extract_projects_heuristic`
(`technologies` and `details` are always created empty). -/
structure PdfProjectItem where
  name : String
  description : String
  technologies : List String
  details : List String
deriving DecidableEq, Repr

/-- `PDFExtractor._extract_projects_heuristic`, limited to 5 entries. -/
def _extract_projects_heuristic (text : String) : List PdfProjectItem :=
  ((splitParagraphs text.data).filterMap (fun e =>
    let entry := stripChars e
    if entry.length < 10 then none
    else
      let lines := ((splitOnChar '\n' entry).map stripChars).filter (fun l => l ≠ [])
      match lines with
      | [] => none
      | first :: more =>
        some { name := String.mk first
               description :=
                 if more = [] then ""
                 else String.intercalate " " (more.map String.mk)
               technologies := []
               details := [] })).take 5

/-! ## Confidence scoring (`docx_extractor.py` / `pdf_extractor.py`) -/

/-- Lookup in a plain string dict (the extracted `contact` mapping). -/
def strDictGet (k : String) (d : List (String × String)) : Option String :=
  (d.find? (fun p => p.1 = k)).map (fun p => p.2)

/-- Truthiness of `extracted.get("contact", {}).get("email")`. -/
def emailTruthy (contact : List (String × String)) : Bool :=
  match strDictGet "email" contact with
  | some s => s ≠ ""
  | none => false

/-- The extracted data the DOCX confidence score inspects. -/
structure DocxExtracted where
  contact : List (String × String)
  summary : String
  experience : List ExperienceItem
  education : List EduItem
  skills : List String

/-- `DOCXExtractor._calculate_confidence_score`: fixed weights for email,
summary, experience, education, skills, capped at 1.0. -/
def docx_calculate_confidence_score (extracted : DocxExtracted) : Rat :=
  let score : Rat := 0
  let score := if emailTruthy extracted.contact then score + 0.2 else score
  let score := if extracted.summary ≠ "" then score + 0.1 else score
  let score := if extracted.experience ≠ [] then score + 0.3 else score
  let score := if extracted.education ≠ [] then score + 0.2 else score
  let score := if extracted.skills ≠ [] then score + 0.2 else score
  min score 1.0

/-- The extracted data the PDF confidence score inspects. -/
structure PdfExtracted where
  contact : List (String × String)
  summary : String
  experience : List PdfExpItem
  education : List EduItem
  skills : List String

/-- `PDFExtractor._calculate_confidence_score`: lower weights, the raw sum
discounted by 0.8 and capped at 0.8. -/
def pdf_calculate_confidence_score (extracted : PdfExtracted) : Rat :=
  let score : Rat := 0
  let score := if emailTruthy extracted.contact then score + 0.15 else score
  let score := if extracted.summary ≠ "" then score + 0.1 else score
  let score := if extracted.experience ≠ [] then score + 0.2 else score
  let score := if extracted.education ≠ [] then score + 0.15 else score
  let score := if extracted.skills ≠ [] then score + 0.1 else score
  min (score * 0.8) 0.8

/-! ## Profile validator
(`app/models/profile_schema.py`, `app/services/profile_validator.py`)

JSON-like Python values are modelled by a mutual inductive family so that
the recursive privacy scan is structurally recursive (and therefore
computable by the kernel).  Python dicts keep insertion order and
overwrite on repeated keys. -/

mutual
inductive JValue where
  | null
  | bool (b : Bool)
  | num (q : Rat)
  | str (s : String)
  | arr (elems : JArr)
  | obj (fields : JObj)
deriving DecidableEq, Repr
inductive JArr where
  | nil
  | cons (v : JValue) (rest : JArr)
deriving DecidableEq, Repr
inductive JObj where
  | nil
  | cons (k : String) (v : JValue) (rest : JObj)
deriving DecidableEq, Repr
end

/-- Build a `JObj` from an association list (for concrete profiles). -/
def JObj.ofList : List (String × JValue) → JObj
  | [] => .nil
  | (k, v) :: rest => .cons k v (JObj.ofList rest)

/-- Build a `JArr` from a list. -/
def JArr.ofList : List JValue → JArr
  | [] => .nil
  | v :: rest => .cons v (JArr.ofList rest)

/-- Python `d.get(k)`. -/
def jGet (k : String) : JObj → Option JValue
  | .nil => none
  | .cons k2 v rest => if k2 = k then some v else jGet k rest

/-- Python `d[k] = v`: overwrite in place, else append. -/
def jInsert (k : String) (v : JValue) : JObj → JObj
  | .nil => .cons k v .nil
  | .cons k2 v2 rest =>
    if k2 = k then .cons k2 v rest else .cons k2 v2 (jInsert k v rest)

/-- Python `del d[k]` (no-op when the key is absent, matching the guarded
deletion in `_clean_invalid_fields`). -/
def jRemove (k : String) : JObj → JObj
  | .nil => .nil
  | .cons k2 v rest => if k2 = k then jRemove k rest else .cons k2 v (jRemove k rest)

/-- The keys of a dict, in order. -/
def JObj.keys : JObj → List String
  | .nil => []
  | .cons k _ rest => k :: JObj.keys rest

/-- Python truthiness of a JSON-like value. -/
def jvFalsy : JValue → Bool
  | .null => true
  | .bool b => !b
  | .num q => q = 0
  | .str s => s = ""
  | .arr a => (a matches .nil)
  | .obj o => (o matches .nil)

/-- `PROFILE_SCHEMA_VERSION` of `profile_schema.py`. -/
def PROFILE_SCHEMA_VERSION : String := "1.0.0"

/-- Python `int(s)` on a version component: optional surrounding
whitespace, an optional sign, then at least one digit. -/
def parsePyInt (s : List Char) : Option Int :=
  let t := stripChars s
  let (sign, digits) :=
    match t with
    | '-' :: rest => ((-1 : Int), rest)
    | '+' :: rest => ((1 : Int), rest)
    | _ => ((1 : Int), t)
  if digits = [] || !digits.all (fun c => isPyDigit c) then none
  else some (sign * (digits.foldl (fun n c => n * 10 + (c.toNat - 48)) (0 : Nat) : Nat))

/-- `is_schema_compatible` of `profile_schema.py`: both versions must
parse as dot-separated integer lists with at least two components
(`ValueError`/`IndexError` yield `False`); the major components must be
equal and the profile minor component must not exceed the current one. -/
def is_schema_compatible (profile_version : String)
    (current_version : String := PROFILE_SCHEMA_VERSION) : Bool :=
  match (splitOnChar '.' profile_version.data).mapM (fun p => parsePyInt p),
      (splitOnChar '.' current_version.data).mapM (fun p => parsePyInt p) with
  | some (p0 :: p1 :: _), some (c0 :: c1 :: _) =>
    if p0 ≠ c0 then false
    else if p1 > c1 then false
    else true
  | _, _ => false

/-- `migrate_profile_schema` of `profile_schema.py`, as reachable from
`validate_profile`: the version is present, truthy and compatible, so the
version field is rewritten to the target.  (The legacy branch that also
stamps `generated_at`, and the `ValueError` raise on incompatibility, are
both unreachable under the guard in `validate_profile`.) -/
def migrate_profile_schema (profile_data : JObj)
    (target_version : String := PROFILE_SCHEMA_VERSION) : JObj :=
  match jGet "schema_version" profile_data with
  | some (.str cv) =>
    if cv ≠ target_version then
      jInsert "schema_version" (.str target_version) profile_data
    else profile_data
  | _ => profile_data

/-- One Pydantic validation error: location path and message. -/
structure FieldError where
  loc : List String
  msg : String
deriving DecidableEq, Repr

/-- `^\d+\.\d+\.\d+$`: the `validate_schema_version` regex. -/
def semverOk (s : String) : Bool :=
  match splitOnChar '.' s.data with
  | [a, b, c] =>
    a ≠ [] && a.all (fun x => isPyDigit x) && b ≠ [] && b.all (fun x => isPyDigit x) &&
      c ≠ [] && c.all (fun x => isPyDigit x)
  | _ => false

/-- The top-level structural validation of `ProfileJSONSchema`, one check
per declared field, in declaration order.  Constraints inside nested
entry schemas (string lengths, e-mail and phone formats, per-entry
fields) are below the granularity any claim touches and are not
modelled; every modelled check mirrors the field type or a declared
validator of the source schema. -/
def checkTopLevel (d : JObj) : List FieldError :=
  (match jGet "schema_version" d with
   | none => []
   | some (.str s) =>
     if semverOk s then []
     else [⟨["schema_version"],
       "Value error, Schema version must follow semantic versioning (x.y.z)"⟩]
   | some _ => [⟨["schema_version"], "Input should be a valid string"⟩]) ++
  (match jGet "generated_at" d with
   | none => []
   | some (.str _) => []
   | some _ => [⟨["generated_at"], "Input should be a valid datetime"⟩]) ++
  (match jGet "extraction_method" d with
   | none => [⟨["extraction_method"], "Field required"⟩]
   | some (.str _) => []
   | some _ => [⟨["extraction_method"], "Input should be a valid string"⟩]) ++
  (match jGet "source_file" d with
   | none => [⟨["source_file"], "Field required"⟩]
   | some (.str _) => []
   | some _ => [⟨["source_file"], "Input should be a valid string"⟩]) ++
  (match jGet "contact" d with
   | none => []
   | some .null => []
   | some (.obj _) => []
   | some _ => [⟨["contact"], "Input should be a valid dictionary"⟩]) ++
  (match jGet "summary" d with
   | none => []
   | some .null => []
   | some (.obj _) => []
   | some _ => [⟨["summary"], "Input should be a valid dictionary"⟩]) ++
  (match jGet "experience" d with
   | none => []
   | some (.arr _) => []
   | some _ => [⟨["experience"], "Input should be a valid list"⟩]) ++
  (match jGet "education" d with
   | none => []
   | some (.arr _) => []
   | some _ => [⟨["education"], "Input should be a valid list"⟩]) ++
  (match jGet "skills" d with
   | none => []
   | some (.arr _) => []
   | some _ => [⟨["skills"], "Input should be a valid list"⟩]) ++
  (match jGet "projects" d with
   | none => []
   | some (.arr _) => []
   | some _ => [⟨["projects"], "Input should be a valid list"⟩]) ++
  (match jGet "achievements" d with
   | none => []
   | some (.arr _) => []
   | some _ => [⟨["achievements"], "Input should be a valid list"⟩]) ++
  (match jGet "additional_sections" d with
   | none => []
   | some .null => []
   | some (.obj _) => []
   | some _ => [⟨["additional_sections"], "Input should be a valid dictionary"⟩]) ++
  (match jGet "metadata" d with
   | none => [⟨["metadata"], "Field required"⟩]
   | some (.obj m) =>
     (match jGet "extractor_version" m with
      | none => [⟨["metadata", "extractor_version"], "Field required"⟩]
      | some (.str _) => []
      | some _ => [⟨["metadata", "extractor_version"], "Input should be a valid string"⟩]) ++
     (match jGet "extraction_timestamp" m with
      | none => [⟨["metadata", "extraction_timestamp"], "Field required"⟩]
      | some (.str _) => []
      | some _ => [⟨["metadata", "extraction_timestamp"], "Input should be a valid datetime"⟩]) ++
     (match jGet "confidence_score" m with
      | none => []
      | some (.num _) => []
      | some _ => [⟨["metadata", "confidence_score"], "Input should be a valid number"⟩])
   | some _ => [⟨["metadata"], "Input should be a valid dictionary"⟩]) ++
  (match jGet "warnings" d with
   | none => []
   | some (.arr _) => []
   | some _ => [⟨["warnings"], "Input should be a valid list"⟩]) ++
  (match jGet "errors" d with
   | none => []
   | some (.arr _) => []
   | some _ => [⟨["errors"], "Input should be a valid list"⟩])

/-- The prohibited derived-PII field names of `privacy_compliance_check`. -/
def prohibited_fields : List String :=
  ["age", "gender", "race", "nationality", "marital_status"]

mutual
/-- Recursion of `check_dict_for_prohibited` into a dict value: only
dictionaries are entered — values inside lists are not scanned. -/
def checkValProhibited : JValue → String → Option String
  | .obj fields, path => check_dict_for_prohibited fields path
  | _, _ => none
/-- `check_dict_for_prohibited(d, path)`: return the path of the first
prohibited key (in insertion order, depth first), if any. -/
def check_dict_for_prohibited : JObj → String → Option String
  | .nil, _ => none
  | .cons k v rest, path =>
    let full_path := if path = "" then k else path ++ "." ++ k
    if prohibited_fields.contains (pyLower k) then some full_path
    else
      match checkValProhibited v full_path with
      | some p => some p
      | none => check_dict_for_prohibited rest path
end

/-- `privacy_compliance_check` of `ProfileJSONSchema`: scan
`additional_sections or {}` when truthy; a hit raises a `ValueError`,
which Pydantic reports as a model-level error with an empty location. -/
def privacy_compliance_check (d : JObj) : List FieldError :=
  match jGet "additional_sections" d with
  | some (.obj o) =>
    if o matches .nil then []
    else
      match check_dict_for_prohibited o "additional_sections" with
      | some p => [⟨[], "Value error, Prohibited derived PII field detected: " ++ p⟩]
      | none => []
  | _ => []

/-- A successfully constructed `ProfileJSONSchema` object: the schema
version it carries plus the validated data. -/
structure ProfileOk where
  schema_version : String
  fields : JObj
deriving DecidableEq, Repr

/-- `ProfileJSONSchema(**profile_data)`: collect all field errors; when
the fields validate, run the model-level privacy validator; success
yields the constructed profile. -/
def pydanticBuild (d : JObj) : Except (List FieldError) ProfileOk :=
  match checkTopLevel d with
  | [] =>
    match privacy_compliance_check d with
    | [] =>
      .ok ⟨(match jGet "schema_version" d with
            | some (.str s) => s
            | _ => PROFILE_SCHEMA_VERSION), d⟩
    | es => .error es
  | errs => .error errs

/-- `ProfileValidationResult` of `profile_validator.py`. -/
structure ProfileValidationResult where
  is_valid : Bool
  profile : Option ProfileOk
  errors : List String
  warnings : List String
deriving DecidableEq, Repr

/-- `f"Field '{field_path}': {error['msg']}"` with
`field_path = " -> ".join(...)`. -/
def formatFieldError (e : FieldError) : String :=
  "Field '" ++ String.intercalate " -> " e.loc ++ "': " ++ e.msg

/-- `ProfileValidator._clean_invalid_fields`: delete exactly the
top-level fields named by single-component error locations. -/
def _clean_invalid_fields (profile_data : JObj) (validation_errors : List FieldError) : JObj :=
  validation_errors.foldl
    (fun d e =>
      match e.loc with
      | [field_name] => jRemove field_name d
      | _ => d)
    profile_data

/-- The Pydantic-validation half of `validate_profile` (everything after
the version handling): on `ValidationError`, format and accumulate the
errors; in strict mode fail; in lenient mode remove the offending
top-level fields and retry once, demoting the errors to warnings on
success and reporting failure otherwise. -/
def runPydantic (d : JObj) (strict : Bool) (errors warnings : List String) :
    ProfileValidationResult :=
  match pydanticBuild d with
  | .ok profile => ⟨true, some profile, [], warnings⟩
  | .error ferrs =>
    let errors := errors ++ ferrs.map formatFieldError
    if strict then ⟨false, none, errors, warnings⟩
    else
      match pydanticBuild (_clean_invalid_fields d ferrs) with
      | .ok profile =>
        ⟨true, some profile, [],
          warnings ++ errors.map (fun err => "Removed invalid field: " ++ err)⟩
      | .error _ =>
        ⟨false, none, errors ++ ["Failed to clean invalid fields: validation error"],
          warnings⟩

/-- The falsy-version branch of `validate_profile`: assume the current
version with a warning. -/
def validateMissingVersion (profile_data : JObj) (strict : Bool) : ProfileValidationResult :=
  runPydantic (jInsert "schema_version" (.str PROFILE_SCHEMA_VERSION) profile_data)
    strict [] ["No schema version found, assuming " ++ PROFILE_SCHEMA_VERSION]

/-- The version-comparison chain of `validate_profile` for a truthy
string version `cv`. -/
def validateVersionStr (profile_data : JObj) (strict : Bool) (cv : String) :
    ProfileValidationResult :=
  if cv = PROFILE_SCHEMA_VERSION then runPydantic profile_data strict [] []
  else if is_schema_compatible cv PROFILE_SCHEMA_VERSION then
    runPydantic (migrate_profile_schema profile_data) strict []
      ["Migrated schema from " ++ cv ++ " to " ++ PROFILE_SCHEMA_VERSION]
  else
    let errors := ["Incompatible schema version: " ++ cv ++
      " (current: " ++ PROFILE_SCHEMA_VERSION ++ ")"]
    if strict then ⟨false, none, errors, []⟩
    else runPydantic profile_data strict errors []

/-- The dispatch of `validate_profile` on a present `schema_version`
value: falsy values count as missing; a non-string truthy value makes
`is_schema_compatible` raise `AttributeError`, caught by the outer
handler. -/
def validateWithVersion (profile_data : JObj) (strict : Bool) (v : JValue) :
    ProfileValidationResult :=
  if jvFalsy v then validateMissingVersion profile_data strict
  else
    match v with
    | .str cv => validateVersionStr profile_data strict cv
    | _ => ⟨false, none, ["Unexpected validation error: schema version is not a string"], []⟩

/-- `ProfileValidator.validate_profile`: version handling (missing
version assumed with a warning; compatible version migrated with a
warning; incompatible version an error, terminal only in strict mode),
then Pydantic validation. -/
def validate_profile (profile_data : JObj) (strict : Bool := true) :
    ProfileValidationResult :=
  match jGet "schema_version" profile_data with
  | none => validateMissingVersion profile_data strict
  | some v => validateWithVersion profile_data strict v

/-! ## Parser-output transformation (`profile_validator.py`) -/

/-- `JArr` as a Lean list. -/
def jArrToList : JArr → List JValue
  | .nil => []
  | .cons v rest => v :: jArrToList rest

/-- Python `a or b` on JSON-like values. -/
def pyOr (a b : JValue) : JValue :=
  if jvFalsy a then b else a

/-- Python `d.get(k)`: `None` when absent. -/
def jGetOr (k : String) (o : JObj) : JValue :=
  (jGet k o).getD .null

/-- Python `str()` of a non-string value, as used by the skill-name
fallback `skill.get("name") or str(skill)`.  Its exact text is reached
only for malformed skill entries and inspected by no claim; the textual
repr is abstracted to a fixed marker. -/
def pyStrFallback (_ : JValue) : String := "<dict>"

/-- `ProfileValidator._extract_contact_section` (`None` on a falsy input,
`AttributeError` — `none` — on a truthy non-dict). -/
def _extract_contact_section (contact_data : JValue) : Option JValue :=
  if jvFalsy contact_data then some .null
  else
    match contact_data with
    | .obj o =>
      some (.obj (JObj.ofList [
        ("full_name", pyOr (jGetOr "name" o) (jGetOr "full_name" o)),
        ("email", jGetOr "email" o),
        ("phone", jGetOr "phone" o),
        ("location", jGetOr "location" o),
        ("website", jGetOr "website" o),
        ("linkedin", jGetOr "linkedin" o),
        ("github", jGetOr "github" o),
        ("address", jGetOr "address" o),
        ("social_profiles", (jGet "social_profiles" o).getD (.obj .nil))]))
    | _ => none

/-- `ProfileValidator._extract_summary_section`. -/
def _extract_summary_section (summary_data : JValue) : JValue :=
  if jvFalsy summary_data then .null
  else
    match summary_data with
    | .str s =>
      .obj (JObj.ofList [("text", .str s), ("objective", .null), ("keywords", .arr .nil)])
    | .obj o =>
      .obj (JObj.ofList [
        ("text", jGetOr "text" o),
        ("objective", jGetOr "objective" o),
        ("keywords", (jGet "keywords" o).getD (.arr .nil))])
    | _ => .null

/-- `ProfileValidator._extract_date_range`. -/
def _extract_date_range (date_data : JValue) : JValue :=
  if jvFalsy date_data then .null
  else
    match date_data with
    | .obj o =>
      .obj (JObj.ofList [
        ("start_date", pyOr (jGetOr "start_date" o) (jGetOr "start" o)),
        ("end_date", pyOr (jGetOr "end_date" o) (jGetOr "end" o)),
        ("is_current", (jGet "is_current" o).getD (.bool false)),
        ("raw_date_text", pyOr (jGetOr "raw_date_text" o) (jGetOr "raw" o))])
    | _ => .null

/-- `ProfileValidator._extract_experience_section`: non-lists become `[]`,
non-dict items are skipped. -/
def _extract_experience_section (experience_data : JValue) : JValue :=
  match experience_data with
  | .arr a =>
    .arr (JArr.ofList ((jArrToList a).filterMap (fun exp =>
      match exp with
      | .obj o =>
        some (.obj (JObj.ofList [
          ("company", jGetOr "company" o),
          ("position", pyOr (jGetOr "position" o) (jGetOr "title" o)),
          ("location", jGetOr "location" o),
          ("dates", _extract_date_range (jGetOr "dates" o)),
          ("description", jGetOr "description" o),
          ("responsibilities", (jGet "responsibilities" o).getD (.arr .nil)),
          ("technologies", (jGet "technologies" o).getD (.arr .nil)),
          ("confidence_score", (jGet "confidence_score" o).getD (.num 0)),
          ("warnings", (jGet "warnings" o).getD (.arr .nil))]))
      | _ => none)))
  | _ => .arr .nil

/-- `ProfileValidator._extract_education_section`. -/
def _extract_education_section (education_data : JValue) : JValue :=
  match education_data with
  | .arr a =>
    .arr (JArr.ofList ((jArrToList a).filterMap (fun edu =>
      match edu with
      | .obj o =>
        some (.obj (JObj.ofList [
          ("institution", pyOr (jGetOr "institution" o) (jGetOr "school" o)),
          ("degree", jGetOr "degree" o),
          ("field_of_study", pyOr (jGetOr "field_of_study" o) (jGetOr "major" o)),
          ("location", jGetOr "location" o),
          ("dates", _extract_date_range (jGetOr "dates" o)),
          ("gpa", jGetOr "gpa" o),
          ("honors", (jGet "honors" o).getD (.arr .nil)),
          ("relevant_coursework", (jGet "relevant_coursework" o).getD (.arr .nil)),
          ("confidence_score", (jGet "confidence_score" o).getD (.num 0)),
          ("warnings", (jGet "warnings" o).getD (.arr .nil))]))
      | _ => none)))
  | _ => .arr .nil

/-- `ProfileValidator._extract_skills_section`: strings become simple
entries, dicts structured entries, everything else is skipped. -/
def _extract_skills_section (skills_data : JValue) : JValue :=
  match skills_data with
  | .arr a =>
    .arr (JArr.ofList ((jArrToList a).filterMap (fun skill =>
      match skill with
      | .str s =>
        some (.obj (JObj.ofList [
          ("name", .str s),
          ("category", .null),
          ("proficiency_level", .null),
          ("confidence_score", .num 1)]))
      | .obj o =>
        some (.obj (JObj.ofList [
          ("name", pyOr (jGetOr "name" o) (.str (pyStrFallback (.obj o)))),
          ("category", jGetOr "category" o),
          ("proficiency_level", jGetOr "proficiency_level" o),
          ("years_experience", jGetOr "years_experience" o),
          ("canonical_name", jGetOr "canonical_name" o),
          ("aliases", (jGet "aliases" o).getD (.arr .nil)),
          ("context", jGetOr "context" o),
          ("confidence_score", (jGet "confidence_score" o).getD (.num 1))]))
      | _ => none)))
  | _ => .arr .nil

/-- `ProfileValidator._extract_projects_section`. -/
def _extract_projects_section (projects_data : JValue) : JValue :=
  match projects_data with
  | .arr a =>
    .arr (JArr.ofList ((jArrToList a).filterMap (fun project =>
      match project with
      | .obj o =>
        some (.obj (JObj.ofList [
          ("name", pyOr (jGetOr "name" o) ((jGet "title" o).getD (.str "Unnamed Project"))),
          ("description", jGetOr "description" o),
          ("url", pyOr (jGetOr "url" o) (jGetOr "link" o)),
          ("dates", _extract_date_range (jGetOr "dates" o)),
          ("technologies", (jGet "technologies" o).getD (.arr .nil)),
          ("role", jGetOr "role" o),
          ("team_size", jGetOr "team_size" o),
          ("confidence_score", (jGet "confidence_score" o).getD (.num 0))]))
      | _ => none)))
  | _ => .arr .nil

/-- `ProfileValidator._extract_achievements_section`. -/
def _extract_achievements_section (achievements_data : JValue) : JValue :=
  match achievements_data with
  | .arr a =>
    .arr (JArr.ofList ((jArrToList a).filterMap (fun achievement =>
      match achievement with
      | .obj o =>
        some (.obj (JObj.ofList [
          ("title", pyOr (jGetOr "title" o) ((jGet "name" o).getD (.str "Achievement"))),
          ("organization", pyOr (jGetOr "organization" o) (jGetOr "issuer" o)),
          ("date_received", pyOr (jGetOr "date_received" o) (jGetOr "date" o)),
          ("description", jGetOr "description" o),
          ("type", jGetOr "type" o),
          ("expiration_date", jGetOr "expiration_date" o),
          ("credential_id", jGetOr "credential_id" o),
          ("verification_url", jGetOr "verification_url" o)]))
      | _ => none)))
  | _ => .arr .nil

/-- `os.path.basename`: the part after the last slash. -/
def pyBasename (s : String) : String :=
  match splitOnceAt ['/'] s.data.reverse with
  | some (revName, _) => ⟨revName.reverse⟩
  | none => s

/-- `ProfileValidator._detect_file_type`: by lowercased extension. -/
def validatorDetectFileType (filename : JValue) : String :=
  match filename with
  | .str s =>
    if s = "" then "unknown"
    else if (splitOnceAt ['.'] s.data).isSome then
      let ext := String.mk (((splitOnChar '.' (lowerChars s.data)).reverse).headD [])
      if ext = "docx" || ext = "doc" then "docx"
      else if ext = "pdf" then "pdf"
      else if ext = "txt" || ext = "text" then "txt"
      else "unknown"
    else "unknown"
  | _ => "unknown"

/-- `ProfileValidator._transform_parser_output`: map the parser result
onto the profile schema field names.  `now` is the ambient
`datetime.now()` reading; `none` models the `AttributeError`/`TypeError`
exceptions the source can raise on malformed input (caught by the
caller). -/
def _transform_parser_output (parser_result : JObj) (now : String) : Option JObj :=
  let source_file0 := (jGet "file_path" parser_result).getD (.str "unknown.docx")
  match
    (match source_file0 with
     | .str s =>
       if s ≠ "" && (splitOnceAt ['/'] s.data).isSome then some (JValue.str (pyBasename s))
       else some (.str s)
     | v => if jvFalsy v then some v else none) with
  | none => none
  | some source_file =>
    match (jGet "sections" parser_result).getD (.obj .nil),
        (jGet "metadata" parser_result).getD (.obj .nil) with
    | .obj so, .obj mo =>
      match _extract_contact_section ((jGet "contact" so).getD (.obj .nil)) with
      | none => none
      | some contact =>
        some (JObj.ofList [
          ("schema_version", .str PROFILE_SCHEMA_VERSION),
          ("generated_at", .str now),
          ("extraction_method", (jGet "extraction_method" parser_result).getD (.str "unknown")),
          ("source_file", source_file),
          ("contact", contact),
          ("summary", _extract_summary_section (jGetOr "summary" so)),
          ("experience", _extract_experience_section ((jGet "experience" so).getD (.arr .nil))),
          ("education", _extract_education_section ((jGet "education" so).getD (.arr .nil))),
          ("skills", _extract_skills_section ((jGet "skills" so).getD (.arr .nil))),
          ("projects", _extract_projects_section ((jGet "projects" so).getD (.arr .nil))),
          ("achievements",
            _extract_achievements_section ((jGet "achievements" so).getD (.arr .nil))),
          ("metadata", .obj (JObj.ofList [
            ("extractor_version", (jGet "extractor_version" mo).getD (.str "0.1.0")),
            ("extraction_timestamp", .str now),
            ("confidence_score", (jGet "confidence_score" mo).getD (.num 0)),
            ("source_file_hash", .null),
            ("file_type", .str (validatorDetectFileType source_file)),
            ("sections_detected", .arr (JArr.ofList (so.keys.map (fun k => JValue.str k))))])),
          ("warnings", (jGet "warnings" parser_result).getD (.arr .nil)),
          ("errors", .arr .nil)])
    | _, _ => none

/-- `validate_parser_output`: empty results fail, otherwise transform and
validate leniently; transformation exceptions become an error result. -/
def validate_parser_output (parser_result : JObj) (now : String) : ProfileValidationResult :=
  if parser_result matches .nil then
    ⟨false, none, ["Parser result is empty"], []⟩
  else
    match _transform_parser_output parser_result now with
    | some profile_data => validate_profile profile_data false
    | none => ⟨false, none, ["Parser output transformation failed: attribute error"], []⟩

/-! ## Extraction router (`app/services/parser_service.py`) -/

/-- Metric events emitted through the metrics collaborator. -/
inductive MetricEvent where
  | parse_start (resume_id : String) (file_format : String) (file_size_bytes : Nat)
  | parse_success (trace_id : String) (duration_ms : Rat) (sections_count : Nat)
      (skills_count : Nat) (warnings_count : Nat)
  | parse_failure (trace_id : String) (duration_ms : Rat) (error_type : String)
deriving DecidableEq, Repr

/-- `ParsingJobResponse`, restricted to the fields `parse_resume`
populates (timestamps are ambient clock readings and carry no logic). -/
structure ParsingJobResponse where
  job_id : String
  status : String
  result : Option JObj
  error : Option String
deriving DecidableEq, Repr

/-- An extractor exception, as caught by the router. -/
structure ExtractorFailure where
  error_type : String
  message : String
deriving DecidableEq, Repr

/-- The effectful collaborators of `parse_resume`, supplied as oracles:
database lookup, filesystem, MIME guesser, the chosen extractor, the
metrics trace id, and the two wall-clock readings taken at entry and at
completion/failure. -/
structure RouterEnv where
  dbPath : String → Option String
  fileExists : String → Bool
  fileSize : String → Nat
  mimeType : String → Option String
  extract : String → String → Except ExtractorFailure JObj
  traceId : String
  startMs : Rat
  endMs : Rat
  now : String

/-- `pathlib.Path(...).suffix`, lowercased: the extension of the final
path component; a lone leading dot is not an extension. -/
def pathSuffixLower (path : String) : String :=
  let name := (pyBasename path).data
  match splitOnceAt ['.'] name.reverse with
  | some (revExt, revStem) =>
    if revStem = [] then ""
    else String.mk (lowerChars ('.' :: revExt.reverse))
  | none => ""

/-- `ParserService._detect_file_type`: extension first, then MIME-type
substring rules, defaulting to `unknown`. -/
def parserDetectFileType (env : RouterEnv) (path : String) : String :=
  let extension := pathSuffixLower path
  if extension = ".docx" then "docx"
  else if extension = ".pdf" then "pdf"
  else if extension = ".txt" || extension = ".text" then "txt"
  else
    match env.mimeType path with
    | some mime =>
      if containsSub "openxmlformats".data mime.data ||
          containsSub "wordprocessingml".data mime.data then "docx"
      else if containsSub "pdf".data mime.data then "pdf"
      else if containsSub "text".data mime.data then "txt"
      else "unknown"
    | none => "unknown"

/-- Python `len` of a JSON-like value (`none` models `TypeError`). -/
def jLen : JValue → Option Nat
  | .str s => some s.data.length
  | .arr a => some (jArrToList a).length
  | .obj o => some o.keys.length
  | _ => none

/-- The skills count of `parse_resume`: the length of a list skills
section, or the summed lengths of list values of a dict skills
section. -/
def skillsCount (result : JObj) : Nat :=
  match jGet "sections" result with
  | some (.obj so) =>
    match jGet "skills" so with
    | some (.arr a) => (jArrToList a).length
    | some (.obj o) =>
      (jvalues o).foldl
        (fun acc v => match v with | .arr a => acc + (jArrToList a).length | _ => acc) 0
    | _ => 0
  | _ => 0
where
  jvalues : JObj → List JValue
    | .nil => []
    | .cons _ v rest => v :: jvalues rest

/-- The fixed mock result `parse_resume` builds for `txt` files. -/
def txtMockResult (now : String) : JObj :=
  JObj.ofList [
    ("extraction_method", .str "txt_simple"),
    ("sections", .obj (JObj.ofList [
      ("contact", .obj (JObj.ofList [("full_name", .str "Test User")])),
      ("summary", .str "Simple text file content"),
      ("experience", .arr .nil),
      ("education", .arr .nil),
      ("skills", .arr (JArr.ofList [.str "Text Processing"])),
      ("projects", .arr .nil),
      ("achievements", .arr .nil)])),
    ("warnings", .arr (JArr.ofList [.str "TXT files have limited parsing capabilities"])),
    ("metadata", .obj (JObj.ofList [
      ("extractor_version", .str "1.0.0"),
      ("extraction_timestamp", .str now),
      ("confidence_score", .num 0.5)]))]

/-- The tail of `parse_resume` after a successful extraction: lenient
schema validation of the result, warning injection on validation
failure, schema stamping, metric counts, and the success event. -/
def parseResumeSuccess (env : RouterEnv) (job_id : String) (result : JObj)
    (events : List MetricEvent) : ParsingJobResponse × List MetricEvent :=
  let validation := validate_parser_output result env.now
  let result :=
    if !validation.is_valid then
      jInsert "warnings"
        (.arr (JArr.ofList (
          (match jGet "warnings" result with
           | some (.arr a) => jArrToList a
           | _ => []) ++
          validation.errors.map (fun err => JValue.str ("Schema validation: " ++ err)))))
        result
    else result
  let result := jInsert "schema_version" (.str PROFILE_SCHEMA_VERSION) result
  let result := jInsert "schema_validated" (.bool validation.is_valid) result
  let duration_ms := env.endMs - env.startMs
  match jLen ((jGet "sections" result).getD (.obj .nil)),
      jLen ((jGet "warnings" result).getD (.arr .nil)) with
  | some sections_count, some warnings_count =>
    (⟨job_id, "completed", some result, none⟩,
      events ++ [.parse_success env.traceId duration_ms sections_count
        (skillsCount result) warnings_count])
  | _, _ =>
    -- a `TypeError` while counting, caught by the outer handler
    (⟨job_id, "failed", none, some "TypeError: object has no len()"⟩,
      events ++ [.parse_failure env.traceId duration_ms "TypeError"])

/-- The extractor dispatch of `parse_resume`, after the path is resolved,
the file exists, and the file type is detected: `docx`/`pdf` go to the
chosen extractor (exceptions become a failed response plus a
`parse_failure` event), `txt` takes the mock path, and any other type is
reported as unsupported (with no failure event). -/
def parseResumeWithType (env : RouterEnv) (job_id resolved_path file_type : String)
    (events : List MetricEvent) : ParsingJobResponse × List MetricEvent :=
  if file_type = "docx" || file_type = "pdf" then
    match env.extract file_type resolved_path with
    | .ok result => parseResumeSuccess env job_id result events
    | .error e =>
      (⟨job_id, "failed", none, some (e.error_type ++ ": " ++ e.message)⟩,
        events ++ [.parse_failure env.traceId (env.endMs - env.startMs) e.error_type])
  else if file_type = "txt" then
    parseResumeSuccess env job_id (txtMockResult env.now) events
  else
    (⟨job_id, "failed", none, some ("Unsupported file type: " ++ file_type)⟩, events)

/-- The resolved-path stage of `parse_resume`: existence check, type
detection, the `parse_start` event, then the typed dispatch. -/
def parseResumeResolved (env : RouterEnv) (resume_id : Option String)
    (job_id resolved_path : String) : ParsingJobResponse × List MetricEvent :=
  if !env.fileExists resolved_path then
    (⟨job_id, "failed", none, some "File not found"⟩, [])
  else
    parseResumeWithType env job_id resolved_path (parserDetectFileType env resolved_path)
      [MetricEvent.parse_start (resume_id.getD "direct_file")
        (parserDetectFileType env resolved_path) (env.fileSize resolved_path)]

/-- `ParserService.parse_resume`: resolve the file, detect the type,
dispatch to an extractor, and convert every failure — missing file,
unsupported type, extractor exception — into a failed job response.  The
returned list is the sequence of metric events emitted. -/
def parse_resume (env : RouterEnv) (resume_id : Option String)
    (file_path : Option String) (job_id : String) :
    ParsingJobResponse × List MetricEvent :=
  match
    (match file_path with
     | some p => some (some p)
     | none =>
       match resume_id with
       | some rid =>
         (match env.dbPath rid with
          | some p => some (some p)
          | none => some none)
       | none => none) with
  | none =>
    -- `ValueError` raised before a trace id exists: caught, no failure event
    (⟨job_id, "failed", none,
      some "ValueError: Either resume_id or file_path must be provided"⟩, [])
  | some none =>
    (⟨job_id, "failed", none,
      some ("Resume with ID " ++ resume_id.getD "" ++ " not found")⟩, [])
  | some (some resolved_path) =>
    parseResumeResolved env resume_id job_id resolved_path

/-! ## Test fixtures and claim-statement notions -/

mutual
/-- The notion quantified in the privacy claim, following the words of the
specification: a prohibited key name occurs at ANY nesting depth under the
value, through dictionaries and lists alike.  (The code scans only nested
dictionaries; comparing this notion with the code is the point of the
claim.) -/
def specProhibitedAtAnyDepth : JValue → Bool
  | .obj fields => specProhibitedInObj fields
  | .arr elems => specProhibitedInArr elems
  | _ => false
/-- `specProhibitedAtAnyDepth` over array elements. -/
def specProhibitedInArr : JArr → Bool
  | .nil => false
  | .cons v rest => specProhibitedAtAnyDepth v || specProhibitedInArr rest
/-- `specProhibitedAtAnyDepth` over dict fields. -/
def specProhibitedInObj : JObj → Bool
  | .nil => false
  | .cons k v rest =>
    prohibited_fields.contains (pyLower k) || specProhibitedAtAnyDepth v ||
      specProhibitedInObj rest
end

/-- A minimal schema-valid profile dictionary, used as a concrete test
fixture by witnesses and counterexamples. -/
def sampleProfile : JObj := JObj.ofList [
  ("schema_version", .str "1.0.0"),
  ("extraction_method", .str "docx_deterministic"),
  ("source_file", .str "resume.docx"),
  ("metadata", .obj (JObj.ofList [
    ("extractor_version", .str "1.0.0"),
    ("extraction_timestamp", .str "2025-01-01T00:00:00"),
    ("confidence_score", .num 0.8)]))]

/-- A stub router environment: every file exists with size 100, no MIME
information, and an extractor that always fails. -/
def stubEnv : RouterEnv :=
  ⟨fun _ => none, fun _ => true, fun _ => 100, fun _ => none,
    fun _ _ => .error ⟨"ExtractionError", "Corrupted file"⟩, "trace-1", 0, 250,
    "2025-01-01T00:00:00"⟩

/-- A router environment whose MIME oracle always answers
`application/pdf`, used to exhibit extension-first precedence. -/
def lyingMimeEnv : RouterEnv :=
  ⟨fun _ => none, fun _ => true, fun _ => 100, fun _ => some "application/pdf",
    fun _ _ => .error ⟨"ExtractionError", "Corrupted file"⟩, "trace-1", 0, 250,
    "2025-01-01T00:00:00"⟩

/-! ## Theorems -/

/-- C8: parsing the experience-section lines
`["Senior Engineer | Acme Corp", "2020 - 2023", "- Led migration", "- Mentored team"]`
with the DOCX entry parser yields one entry with title `Senior Engineer`,
company `Acme Corp`, a duration containing `2020` and `2023` or
`present`, and responsibilities exactly
`["Led migration", "Mentored team"]`. -/
theorem C8_docx_experience_entry :
    ∃ e : ExperienceItem,
      _extract_experience
          "Senior Engineer | Acme Corp\n2020 - 2023\n- Led migration\n- Mentored team" =
        [e] ∧
      e.title = "Senior Engineer" ∧
      e.company = "Acme Corp" ∧
      containsSub "2020".data e.duration.data = true ∧
      (containsSub "2023".data e.duration.data = true ∨
        containsSub "present".data e.duration.data = true) ∧
      e.responsibilities = ["Led migration", "Mentored team"] :=
  ⟨⟨"Acme Corp", "Senior Engineer", "2020 - 2023", ["Led migration", "Mentored team"]⟩,
    by rfl, rfl, rfl, by rfl, Or.inl (by rfl), rfl⟩

/-- C10: the per-section outputs of the PDF extractor are truncated to at
most 10 experience entries, 5 education entries, 20 skills and 5
projects. -/
theorem C10_pdf_section_caps (text : String) :
    (_extract_experience_heuristic text).length ≤ 10 ∧
    (_extract_education_heuristic text).length ≤ 5 ∧
    (_extract_skills_heuristic text).length ≤ 20 ∧
    (_extract_projects_heuristic text).length ≤ 5 := by
  refine ⟨?_, ?_, ?_, ?_⟩ <;>
    first
    | (rw [_extract_experience_heuristic, List.length_take]; exact min_le_left _ _)
    | (rw [_extract_education_heuristic, List.length_take]; exact min_le_left _ _)
    | (rw [_extract_skills_heuristic]; rw [List.length_take]; exact min_le_left _ _)
    | (rw [_extract_projects_heuristic, List.length_take]; exact min_le_left _ _)

/-- C9: the DOCX confidence score is the weighted presence sum with
weights 0.2 (contact email), 0.1 (summary), 0.3 (experience), 0.2
(education), 0.2 (skills), capped at 1.0; the PDF score is 0.8 times its
own weighted presence sum, capped at 0.8, hence always strictly below
the DOCX ceiling of 1.0. -/
theorem C9_confidence_scores (d : DocxExtracted) (p : PdfExtracted) :
    docx_calculate_confidence_score d =
      min ((if emailTruthy d.contact then (0.2 : Rat) else 0) +
        (if d.summary ≠ "" then (0.1 : Rat) else 0) +
        (if d.experience ≠ [] then (0.3 : Rat) else 0) +
        (if d.education ≠ [] then (0.2 : Rat) else 0) +
        (if d.skills ≠ [] then (0.2 : Rat) else 0)) 1 ∧
    pdf_calculate_confidence_score p =
      min (((if emailTruthy p.contact then (0.15 : Rat) else 0) +
        (if p.summary ≠ "" then (0.1 : Rat) else 0) +
        (if p.experience ≠ [] then (0.2 : Rat) else 0) +
        (if p.education ≠ [] then (0.15 : Rat) else 0) +
        (if p.skills ≠ [] then (0.1 : Rat) else 0)) * 0.8) 0.8 ∧
    pdf_calculate_confidence_score p < 1 := by
  refine ⟨?_, ?_, ?_⟩
  · unfold docx_calculate_confidence_score
    split_ifs <;> norm_num
  · unfold pdf_calculate_confidence_score
    split_ifs <;> norm_num
  · unfold pdf_calculate_confidence_score
    have h : ∀ x : Rat, min (x * 0.8) 0.8 ≤ 0.8 := fun x => min_le_right _ _
    calc _ ≤ (0.8 : Rat) := h _
    _ < 1 := by norm_num

/-- C4: two skill strings whose cleaned forms hit the same alias-table
entry normalize to the same canonical name and category; every alias hit
gets confidence 0.95; every miss gets confidence 0.7 and the title-cased
cleaned string as canonical name. -/
theorem C4_normalize_skill_aliases :
    (∀ s1 s2 : String, ∀ e : SkillInfo,
      dictGet (pyLower (_clean_skill_name s1)) alias_to_canonical = some e →
      dictGet (pyLower (_clean_skill_name s2)) alias_to_canonical = some e →
      (normalize_skill s1).canonical_name = (normalize_skill s2).canonical_name ∧
        (normalize_skill s1).category = (normalize_skill s2).category) ∧
    (∀ s : String, ∀ e : SkillInfo,
      dictGet (pyLower (_clean_skill_name s)) alias_to_canonical = some e →
      (normalize_skill s).confidence_score = 95 / 100) ∧
    (∀ s : String,
      dictGet (pyLower (_clean_skill_name s)) alias_to_canonical = none →
      (normalize_skill s).confidence_score = 7 / 10 ∧
        (normalize_skill s).canonical_name = pyTitle (_clean_skill_name s)) := by
  refine ⟨?_, ?_, ?_⟩
  · intro s1 s2 e h1 h2
    simp [normalize_skill, h1, h2]
  · intro s e h
    simp [normalize_skill, h]
  · intro s h
    simp [normalize_skill, h]

/-- Witness for C4 at the alias pair `ReactJS` / `react.js` and the miss
`Unknown Widget Tool`. -/
theorem C4_normalize_skill_aliases_witness :
    ((normalize_skill "ReactJS").canonical_name = (normalize_skill "react.js").canonical_name ∧
      (normalize_skill "ReactJS").category = (normalize_skill "react.js").category) ∧
    (normalize_skill "ReactJS").confidence_score = 95 / 100 ∧
    ((normalize_skill "Unknown Widget Tool").confidence_score = 7 / 10 ∧
      (normalize_skill "Unknown Widget Tool").canonical_name =
        pyTitle (_clean_skill_name "Unknown Widget Tool")) :=
  ⟨C4_normalize_skill_aliases.1 "ReactJS" "react.js"
      ⟨"React", ["reactjs", "react.js", "react js"], .FRAMEWORKS⟩ (by rfl) (by rfl),
    C4_normalize_skill_aliases.2.1 "ReactJS"
      ⟨"React", ["reactjs", "react.js", "react js"], .FRAMEWORKS⟩ (by rfl),
    C4_normalize_skill_aliases.2.2 "Unknown Widget Tool" (by rfl)⟩

/-! ### Section-scan lemmas (C6) -/

theorem mem_smapGet_addKey {x : Nat} {s s2 : String} {m : List (String × List Nat)} :
    x ∈ smapGet s (smapAddKey s2 m) ↔ x ∈ smapGet s m := by
  unfold smapAddKey
  split
  · exact Iff.rfl
  · next hnot =>
    induction m with
    | nil => by_cases hs : s2 = s <;> simp [smapGet, hs]
    | cons p rest ih =>
      have hrest : ¬(rest.any fun p => decide (p.1 = s2)) = true := by
        simp only [List.any_cons, Bool.or_eq_true] at hnot
        exact fun h => hnot (Or.inr h)
      by_cases hp : p.1 = s
      · simp [smapGet, hp]
      · simp only [List.cons_append, smapGet, if_neg hp]
        exact ih hrest

theorem mem_smapGet_append {x i : Nat} {s cur : String} {m : List (String × List Nat)} :
    x ∈ smapGet s (smapAppend cur i m) ↔
      x ∈ smapGet s m ∨ (s = cur ∧ x = i ∧ m.any (fun p => p.1 = cur) = true) := by
  induction m with
  | nil => simp [smapAppend, smapGet]
  | cons p rest ih =>
    unfold smapAppend at ih ⊢
    simp only [List.map_cons, List.any_cons]
    by_cases hp : p.1 = cur <;> by_cases hs : p.1 = s <;>
      simp only [smapGet, if_pos, if_neg, hp, hs, if_true, if_false, ite_true, ite_false] <;>
      simp_all [smapGet] <;> tauto

theorem pdfStep_switch {n i : Nat} {st : ScanState} {line : String} {s2 : String}
    (hd : pdfDetected line = some s2) :
    pdfStep n st i line = ⟨smapAddKey s2 st.sections, some s2⟩ := by
  simp [pdfStep, hd]

theorem pdfStep_idle {n i : Nat} {st : ScanState} {line : String}
    (hd : pdfDetected line = none) (hc : st.current = none) :
    pdfStep n st i line = st := by
  simp [pdfStep, hd, hc]

theorem pdfStep_app {n i : Nat} {st : ScanState} {line : String} {cur : String}
    (hd : pdfDetected line = none) (hc : st.current = some cur) (hlt : i < n - 1) :
    pdfStep n st i line = ⟨smapAppend cur i st.sections, st.current⟩ := by
  simp [pdfStep, hd, hc, hlt]

theorem pdfStep_last {n i : Nat} {st : ScanState} {line : String} {cur : String}
    (hd : pdfDetected line = none) (hc : st.current = some cur) (hlt : ¬ i < n - 1) :
    pdfStep n st i line = st := by
  simp [pdfStep, hd, hc, hlt]

def smapKeyInv (st : ScanState) : Prop :=
  ∀ s, st.current = some s → st.sections.any (fun p => p.1 = s) = true

theorem any_smapAddKey_self {s : String} {m : List (String × List Nat)} :
    (smapAddKey s m).any (fun p => p.1 = s) = true := by
  unfold smapAddKey
  split
  · assumption
  · simp

theorem any_smapAppend {s cur : String} {i : Nat} {m : List (String × List Nat)} :
    (smapAppend cur i m).any (fun p => p.1 = s) = m.any (fun p => p.1 = s) := by
  induction m with
  | nil => rfl
  | cons p rest ih =>
    unfold smapAppend at ih ⊢
    by_cases hp : p.1 = cur <;> simp [hp, ih]

theorem pdfStep_keyInv {n i : Nat} {st : ScanState} {line : String}
    (h : smapKeyInv st) : smapKeyInv (pdfStep n st i line) := by
  rcases hd : pdfDetected line with _ | s2
  · rcases hc : st.current with _ | cur
    · rw [pdfStep_idle hd hc]; exact h
    · by_cases hlt : i < n - 1
      · rw [pdfStep_app hd hc hlt]
        intro s hs
        simp only at hs
        rw [any_smapAppend]
        exact h s hs
      · rw [pdfStep_last hd hc hlt]; exact h
  · rw [pdfStep_switch hd]
    intro s hs
    simp only [Option.some.injEq] at hs
    subst hs
    exact any_smapAddKey_self

theorem pdfScanFrom_keyInv {n : Nat} {l : List String} :
    ∀ {i0 : Nat} {st : ScanState}, smapKeyInv st → smapKeyInv (pdfScanFrom n i0 st l) := by
  induction l with
  | nil => intro _ _ h; exact h
  | cons line rest ih =>
    intro i0 st h
    show smapKeyInv (pdfScanFrom n (i0 + 1) (pdfStep n st i0 line) rest)
    exact ih (pdfStep_keyInv h)

theorem pdfStep_mono {n i : Nat} {st : ScanState} {line : String} {s : String} {x : Nat}
    (h : x ∈ smapGet s st.sections) : x ∈ smapGet s (pdfStep n st i line).sections := by
  rcases hd : pdfDetected line with _ | s2
  · rcases hc : st.current with _ | cur
    · rw [pdfStep_idle hd hc]; exact h
    · by_cases hlt : i < n - 1
      · rw [pdfStep_app hd hc hlt]
        exact mem_smapGet_append.mpr (Or.inl h)
      · rw [pdfStep_last hd hc hlt]; exact h
  · rw [pdfStep_switch hd]
    exact mem_smapGet_addKey.mpr h

theorem pdfScanFrom_mono {n : Nat} {l : List String} {s : String} {x : Nat} :
    ∀ {i0 : Nat} {st : ScanState}, x ∈ smapGet s st.sections →
      x ∈ smapGet s (pdfScanFrom n i0 st l).sections := by
  induction l with
  | nil => intro _ _ h; exact h
  | cons line rest ih =>
    intro i0 st h
    show x ∈ smapGet s (pdfScanFrom n (i0 + 1) (pdfStep n st i0 line) rest).sections
    exact ih (pdfStep_mono h)

theorem pdfScanFrom_append {n : Nat} (l1 l2 : List String) :
    ∀ (i0 : Nat) (st : ScanState),
      pdfScanFrom n i0 st (l1 ++ l2) =
        pdfScanFrom n (i0 + l1.length) (pdfScanFrom n i0 st l1) l2 := by
  induction l1 with
  | nil => intro i0 st; simp [pdfScanFrom]
  | cons line rest ih =>
    intro i0 st
    show pdfScanFrom n (i0 + 1) (pdfStep n st i0 line) (rest ++ l2) = _
    rw [ih]
    have h1 : i0 + 1 + rest.length = i0 + (line :: rest).length := by
      simp [List.length_cons]; omega
    rw [h1]
    rfl

theorem pdf_append_mem_gen (n : Nat) (lines : List String) (i : Nat) (hi : i < lines.length)
    (s : String) (hnd : pdfDetected lines[i] = none)
    (hcur : (pdfScanFrom n 0 ⟨[], none⟩ (lines.take i)).current = some s)
    (hlt : i < n - 1) :
    i ∈ smapGet s (pdfScanFrom n 0 ⟨[], none⟩ lines).sections := by
  have hdecomp : lines = lines.take i ++ lines[i] :: lines.drop (i + 1) := by
    rw [List.get_drop_eq_drop lines i hi]
    exact (List.take_append_drop i lines).symm
  set st_i := pdfScanFrom n 0 ⟨[], none⟩ (lines.take i) with hst
  have hkey : smapKeyInv st_i := pdfScanFrom_keyInv (by intro s hs; simp at hs)
  rw [show pdfScanFrom n 0 ⟨[], none⟩ lines =
    pdfScanFrom n 0 ⟨[], none⟩ (lines.take i ++ lines[i] :: lines.drop (i + 1)) from by
      rw [← hdecomp]]
  rw [pdfScanFrom_append]
  have hlen : (lines.take i).length = i := by
    rw [List.length_take]
    omega
  rw [hlen, ← hst, Nat.zero_add]
  show i ∈ smapGet s (pdfScanFrom n (i + 1) (pdfStep n st_i i lines[i]) (lines.drop (i+1))).sections
  refine pdfScanFrom_mono ?_
  rw [pdfStep_app hnd hcur hlt]
  exact mem_smapGet_append.mpr (Or.inr ⟨rfl, rfl, hkey s hcur⟩)

theorem pdf_members_lt (n : Nat) (l : List String) :
    ∀ (i0 : Nat) (st : ScanState) (s : String) (x : Nat),
      (∀ s' x', x' ∈ smapGet s' st.sections → x' < n - 1) →
      x ∈ smapGet s (pdfScanFrom n i0 st l).sections → x < n - 1 := by
  induction l with
  | nil => intro i0 st s x hinv h; exact hinv s x h
  | cons line rest ih =>
    intro i0 st s x hinv h
    rw [show pdfScanFrom n i0 st (line :: rest) =
      pdfScanFrom n (i0 + 1) (pdfStep n st i0 line) rest from rfl] at h
    refine ih (i0 + 1) _ s x ?_ h
    intro s' x' hx'
    rcases hd : pdfDetected line with _ | s2
    · rcases hc : st.current with _ | cur
      · rw [pdfStep_idle hd hc] at hx'; exact hinv s' x' hx'
      · by_cases hlt : i0 < n - 1
        · rw [pdfStep_app hd hc hlt] at hx'
          rcases mem_smapGet_append.mp hx' with h2 | ⟨_, h2, _⟩
          · exact hinv s' x' h2
          · omega
        · rw [pdfStep_last hd hc hlt] at hx'; exact hinv s' x' hx'
    · rw [pdfStep_switch hd] at hx'
      exact hinv s' x' (mem_smapGet_addKey.mp hx')

theorem pdf_members_ge (n : Nat) (l : List String) (c : Nat) :
    ∀ (i0 : Nat) (st : ScanState) (s : String) (x : Nat),
      (∀ s' x', x' ∈ smapGet s' st.sections → c ≤ x') → c ≤ i0 →
      x ∈ smapGet s (pdfScanFrom n i0 st l).sections → c ≤ x := by
  induction l with
  | nil => intro i0 st s x hinv _ h; exact hinv s x h
  | cons line rest ih =>
    intro i0 st s x hinv hc0 h
    rw [show pdfScanFrom n i0 st (line :: rest) =
      pdfScanFrom n (i0 + 1) (pdfStep n st i0 line) rest from rfl] at h
    refine ih (i0 + 1) _ s x ?_ (by omega) h
    intro s' x' hx'
    rcases hd : pdfDetected line with _ | s2
    · rcases hc : st.current with _ | cur
      · rw [pdfStep_idle hd hc] at hx'; exact hinv s' x' hx'
      · by_cases hlt : i0 < n - 1
        · rw [pdfStep_app hd hc hlt] at hx'
          rcases mem_smapGet_append.mp hx' with h2 | ⟨_, h2, _⟩
          · exact hinv s' x' h2
          · omega
        · rw [pdfStep_last hd hc hlt] at hx'; exact hinv s' x' hx'
    · rw [pdfStep_switch hd] at hx'
      exact hinv s' x' (mem_smapGet_addKey.mp hx')

theorem pdfIdleScan (n : Nat) (l : List String)
    (hall : ∀ line ∈ l, pdfDetected line = none) :
    ∀ (i0 : Nat) (m : List (String × List Nat)),
      pdfScanFrom n i0 ⟨m, none⟩ l = ⟨m, none⟩ := by
  induction l with
  | nil => intro _ _; rfl
  | cons line rest ih =>
    intro i0 m
    show pdfScanFrom n (i0 + 1) (pdfStep n ⟨m, none⟩ i0 line) rest = _
    rw [pdfStep_idle (hall line (by simp)) rfl]
    exact ih (fun x hx => hall x (by simp [hx])) (i0 + 1) m

theorem docxStep_switch {st : ScanState} {p : Para} {s2 : String}
    (hd : docxDetected p.text = some s2) (hh : p.is_header = true) :
    docxStep st p = ⟨smapAddKey s2 st.sections, some s2⟩ := by
  simp [docxStep, hd, hh]

theorem docxStep_fall {st : ScanState} {p : Para}
    (hns : docxDetected p.text = none ∨ p.is_header = false) :
    docxStep st p =
      (match st.current with
       | some cur => ⟨smapAppend cur p.index st.sections, st.current⟩
       | none => st) := by
  rcases hns with hd | hh
  · simp [docxStep, hd]
  · rcases hd : docxDetected p.text with _ | s2 <;> simp [docxStep, hd, hh]

theorem docxStep_app {st : ScanState} {p : Para} {cur : String}
    (hns : docxDetected p.text = none ∨ p.is_header = false)
    (hc : st.current = some cur) :
    docxStep st p = ⟨smapAppend cur p.index st.sections, st.current⟩ := by
  rw [docxStep_fall hns, hc]

theorem docxStep_idle {st : ScanState} {p : Para}
    (hns : docxDetected p.text = none ∨ p.is_header = false)
    (hc : st.current = none) :
    docxStep st p = st := by
  rw [docxStep_fall hns, hc]

theorem docxStep_keyInv {st : ScanState} {p : Para}
    (h : smapKeyInv st) : smapKeyInv (docxStep st p) := by
  by_cases hsw : (docxDetected p.text).isSome ∧ p.is_header = true
  · obtain ⟨hd, hh⟩ := hsw
    obtain ⟨s2, hs2⟩ := Option.isSome_iff_exists.mp hd
    rw [docxStep_switch hs2 hh]
    intro s hs
    simp only [Option.some.injEq] at hs
    subst hs
    exact any_smapAddKey_self
  · have hns : docxDetected p.text = none ∨ p.is_header = false := by
      rcases hd : docxDetected p.text with _ | s2
      · exact Or.inl rfl
      · right
        by_contra hh
        exact hsw ⟨by simp [hd], by simpa using hh⟩
    rcases hc : st.current with _ | cur
    · rw [docxStep_idle hns hc]; exact h
    · rw [docxStep_app hns hc]
      intro s hs
      simp only at hs
      rw [hc] at hs
      cases hs
      rw [any_smapAppend]
      exact h _ hc

theorem docxFold_keyInv {l : List Para} :
    ∀ {st : ScanState}, smapKeyInv st → smapKeyInv (l.foldl docxStep st) := by
  induction l with
  | nil => intro _ h; exact h
  | cons p rest ih =>
    intro st h
    exact ih (docxStep_keyInv h)

theorem docxStep_mono {st : ScanState} {p : Para} {s : String} {x : Nat}
    (h : x ∈ smapGet s st.sections) : x ∈ smapGet s (docxStep st p).sections := by
  by_cases hsw : (docxDetected p.text).isSome ∧ p.is_header = true
  · obtain ⟨hd, hh⟩ := hsw
    obtain ⟨s2, hs2⟩ := Option.isSome_iff_exists.mp hd
    rw [docxStep_switch hs2 hh]
    exact mem_smapGet_addKey.mpr h
  · have hns : docxDetected p.text = none ∨ p.is_header = false := by
      rcases hd : docxDetected p.text with _ | s2
      · exact Or.inl rfl
      · right
        by_contra hh
        exact hsw ⟨by simp [hd], by simpa using hh⟩
    rcases hc : st.current with _ | cur
    · rw [docxStep_idle hns hc]; exact h
    · rw [docxStep_app hns hc]
      exact mem_smapGet_append.mpr (Or.inl h)

theorem docxFold_mono {l : List Para} {s : String} {x : Nat} :
    ∀ {st : ScanState}, x ∈ smapGet s st.sections →
      x ∈ smapGet s (l.foldl docxStep st).sections := by
  induction l with
  | nil => intro _ h; exact h
  | cons p rest ih =>
    intro st h
    exact ih (docxStep_mono h)

theorem docx_append_mem_gen (paras : List Para) (i : Nat) (hi : i < paras.length)
    (s : String)
    (hns : docxDetected paras[i].text = none ∨ paras[i].is_header = false)
    (hcur : ((paras.take i).foldl docxStep ⟨[], none⟩).current = some s) :
    paras[i].index ∈ smapGet s (paras.foldl docxStep ⟨[], none⟩).sections := by
  have hdecomp : paras = paras.take i ++ paras[i] :: paras.drop (i + 1) := by
    rw [List.get_drop_eq_drop paras i hi]
    exact (List.take_append_drop i paras).symm
  set st_i := (paras.take i).foldl docxStep ⟨[], none⟩ with hst
  have hkey : smapKeyInv st_i := docxFold_keyInv (by intro s hs; simp at hs)
  rw [show paras.foldl docxStep ⟨[], none⟩ =
    (paras.take i ++ paras[i] :: paras.drop (i + 1)).foldl docxStep ⟨[], none⟩ from by
      rw [← hdecomp]]
  rw [List.foldl_append]
  rw [← hst]
  show paras[i].index ∈
    smapGet s ((paras.drop (i+1)).foldl docxStep (docxStep st_i paras[i])).sections
  refine docxFold_mono ?_
  rw [docxStep_app hns hcur]
  exact mem_smapGet_append.mpr (Or.inr ⟨rfl, rfl, hkey s hcur⟩)

theorem docx_members_sub (l : List Para) :
    ∀ (st : ScanState) (s : String) (x : Nat),
      x ∈ smapGet s (l.foldl docxStep st).sections →
      x ∈ smapGet s st.sections ∨ x ∈ l.map Para.index := by
  induction l with
  | nil => intro st s x h; exact Or.inl h
  | cons p rest ih =>
    intro st s x h
    rcases ih (docxStep st p) s x h with h2 | h2
    · by_cases hsw : (docxDetected p.text).isSome ∧ p.is_header = true
      · obtain ⟨hd, hh⟩ := hsw
        obtain ⟨s2, hs2⟩ := Option.isSome_iff_exists.mp hd
        rw [docxStep_switch hs2 hh] at h2
        exact Or.inl (mem_smapGet_addKey.mp h2)
      · have hns : docxDetected p.text = none ∨ p.is_header = false := by
          rcases hd : docxDetected p.text with _ | s2
          · exact Or.inl rfl
          · right
            by_contra hh
            exact hsw ⟨by simp [hd], by simpa using hh⟩
        rcases hc : st.current with _ | cur
        · rw [docxStep_idle hns hc] at h2; exact Or.inl h2
        · rw [docxStep_app hns hc] at h2
          rcases mem_smapGet_append.mp h2 with h3 | ⟨_, h3, _⟩
          · exact Or.inl h3
          · exact Or.inr (by simp [h3])
    · exact Or.inr (by simp [h2])

theorem docxIdleScan (l : List Para)
    (hall : ∀ p ∈ l, docxDetected p.text = none ∨ p.is_header = false) :
    ∀ (m : List (String × List Nat)),
      l.foldl docxStep ⟨m, none⟩ = ⟨m, none⟩ := by
  induction l with
  | nil => intro _; rfl
  | cons p rest ih =>
    intro m
    show rest.foldl docxStep (docxStep ⟨m, none⟩ p) = _
    rw [docxStep_idle (hall p (by simp)) rfl]
    exact ih (fun x hx => hall x (by simp [hx])) m

/-- C6 (counterexample): in the PDF scan of
`["Experience", "Worked at X", "Final line"]`, the final line is a
non-header unit, a section is open when it is reached, and yet it is not
appended to that section — refuting "up to and including the last unit of
the document" for the PDF extractor. -/
theorem C6_last_unit_counterexample :
    pdfDetected "Final line" = none ∧
    (pdfScanFrom 3 0 ⟨[], none⟩ (["Experience", "Worked at X", "Final line"].take 2)).current =
      some "experience" ∧
    _detect_sections_heuristic ["Experience", "Worked at X", "Final line"] =
      [("experience", [1])] ∧
    2 ∉ smapGet "experience"
      (_detect_sections_heuristic ["Experience", "Worked at X", "Final line"]) := by
  refine ⟨by rfl, by rfl, by rfl, by decide⟩

/-- C6 (amended): in both extractors, once a current section is open
every subsequent non-header unit is appended to that section, except that
the PDF scan never assigns the final line of the document to any section
(its append is guarded by `i < len(lines) - 1`); the DOCX scan appends up
to and including the last paragraph; units before the first header belong
to no section in either extractor. -/
theorem C6_section_scan_amended :
    (∀ (paras : List Para) (i : Nat) (hi : i < paras.length) (s : String),
      (docxDetected paras[i].text = none ∨ paras[i].is_header = false) →
      ((paras.take i).foldl docxStep ⟨[], none⟩).current = some s →
      paras[i].index ∈ smapGet s (_detect_sections paras)) ∧
    (∀ (lines : List String) (i : Nat) (hi : i < lines.length) (s : String),
      pdfDetected lines[i] = none →
      (pdfScanFrom lines.length 0 ⟨[], none⟩ (lines.take i)).current = some s →
      (i ∈ smapGet s (_detect_sections_heuristic lines) ↔ i < lines.length - 1)) ∧
    (∀ (lines : List String) (s : String) (x : Nat),
      x ∈ smapGet s (_detect_sections_heuristic lines) → x < lines.length - 1) ∧
    (∀ (lines : List String) (i : Nat) (s : String),
      (∀ line ∈ lines.take (i + 1), pdfDetected line = none) →
      i ∉ smapGet s (_detect_sections_heuristic lines)) ∧
    (∀ (paras : List Para) (i : Nat) (hi : i < paras.length) (s : String),
      (∀ p ∈ paras.take (i + 1), docxDetected p.text = none ∨ p.is_header = false) →
      (paras.map Para.index).Nodup →
      paras[i].index ∉ smapGet s (_detect_sections paras)) := by
  have hlt : ∀ (lines : List String) (s : String) (x : Nat),
      x ∈ smapGet s (_detect_sections_heuristic lines) → x < lines.length - 1 := by
    intro lines s x h
    exact pdf_members_lt lines.length lines 0 ⟨[], none⟩ s x
      (by intro s' x' h'; simp [smapGet] at h') h
  refine ⟨?_, ?_, hlt, ?_, ?_⟩
  · intro paras i hi s hns hcur
    exact docx_append_mem_gen paras i hi s hns hcur
  · intro lines i hi s hnd hcur
    constructor
    · exact fun h => hlt lines s i h
    · exact fun hl => pdf_append_mem_gen lines.length lines i hi s hnd hcur hl
  · intro lines i s hpre h
    by_cases hle : i + 1 ≤ lines.length
    · have hdec : lines = lines.take (i + 1) ++ lines.drop (i + 1) :=
        (List.take_append_drop _ _).symm
      unfold _detect_sections_heuristic at h
      rw [show pdfScanFrom lines.length 0 ⟨[], none⟩ lines =
        pdfScanFrom lines.length 0 ⟨[], none⟩ (lines.take (i + 1) ++ lines.drop (i + 1)) from by
          rw [← hdec]] at h
      rw [pdfScanFrom_append] at h
      rw [pdfIdleScan lines.length (lines.take (i + 1)) hpre 0 []] at h
      have hge := pdf_members_ge lines.length (lines.drop (i + 1)) (i + 1)
        (0 + (lines.take (i + 1)).length) ⟨[], none⟩ s i
        (by intro s' x' h'; simp [smapGet] at h')
        (by rw [List.length_take]; omega) h
      omega
    · have htake : lines.take (i + 1) = lines := List.take_of_length_le (by omega)
      rw [htake] at hpre
      unfold _detect_sections_heuristic at h
      rw [pdfIdleScan lines.length lines hpre 0 []] at h
      simp [smapGet] at h
  · intro paras i hi s hpre hnodup h
    have htl : (paras.take (i + 1)).length = i + 1 := by
      rw [List.length_take]
      omega
    have hdec : paras = paras.take (i + 1) ++ paras.drop (i + 1) :=
      (List.take_append_drop _ _).symm
    unfold _detect_sections at h
    rw [show paras.foldl docxStep ⟨[], none⟩ =
      (paras.take (i + 1) ++ paras.drop (i + 1)).foldl docxStep ⟨[], none⟩ from by
        rw [← hdec]] at h
    rw [List.foldl_append] at h
    rw [docxIdleScan (paras.take (i + 1)) hpre []] at h
    rcases docx_members_sub (paras.drop (i + 1)) ⟨[], none⟩ s paras[i].index h with h2 | h2
    · simp [smapGet] at h2
    · have hmem : paras[i].index ∈ (paras.take (i + 1)).map Para.index := by
        refine List.mem_map.mpr ⟨paras[i], ?_, rfl⟩
        have hb : i < (paras.take (i + 1)).length := by omega
        have h4 : (paras.take (i + 1))[i] = paras[i] := List.getElem_take _
        rw [← h4]
        exact List.getElem_mem _
      have hsplit : (paras.map Para.index) =
          (paras.take (i + 1)).map Para.index ++ (paras.drop (i + 1)).map Para.index := by
        rw [← List.map_append, ← hdec]
      rw [hsplit] at hnodup
      have hdisj := (List.nodup_append.mp hnodup).2.2
      exact hdisj hmem h2

/-- Witness for the amended C6 at concrete documents. -/
theorem C6_section_scan_amended_witness :
    (1 ∈ smapGet "experience"
      (_detect_sections [⟨0, "Experience", true⟩, ⟨1, "Worked at X", false⟩])) ∧
    ((1 ∈ smapGet "experience"
        (_detect_sections_heuristic ["Experience", "a b c d e f", "last"])) ↔
      1 < (2 : Nat)) ∧
    (1 < (2 : Nat)) ∧
    (0 ∉ smapGet "experience" (_detect_sections_heuristic ["plain text", "Experience"])) ∧
    (5 ∉ smapGet "experience"
      (_detect_sections [⟨5, "plain text", false⟩, ⟨0, "Experience", true⟩, ⟨1, "y", false⟩])) :=
  ⟨C6_section_scan_amended.1 [⟨0, "Experience", true⟩, ⟨1, "Worked at X", false⟩] 1
      (by decide) "experience" (Or.inl (by rfl)) (by rfl),
    C6_section_scan_amended.2.1 ["Experience", "a b c d e f", "last"] 1 (by decide)
      "experience" (by rfl) (by rfl),
    C6_section_scan_amended.2.2.1 ["Experience", "a b c d e f", "last"] "experience" 1
      (by decide),
    C6_section_scan_amended.2.2.2.1 ["plain text", "Experience"] 0 "experience"
      (by intro line hl; simp at hl; rw [hl]; rfl),
    C6_section_scan_amended.2.2.2.2 [⟨5, "plain text", false⟩, ⟨0, "Experience", true⟩,
      ⟨1, "y", false⟩] 0 (by decide) "experience"
      (by intro p hp; simp at hp; rw [hp]; exact Or.inl (by rfl)) (by decide)⟩

/-! ### Validator equation lemmas (C1, C2, C5) -/

theorem pydanticBuild_ok {d : JObj} {s : String}
    (hchk : checkTopLevel d = []) (hpriv : privacy_compliance_check d = [])
    (hv : jGet "schema_version" d = some (.str s)) :
    pydanticBuild d = .ok ⟨s, d⟩ := by
  unfold pydanticBuild
  rw [hchk, hpriv, hv]

theorem pydanticBuild_err {d : JObj} {e : FieldError} {es : List FieldError}
    (hchk : checkTopLevel d = e :: es) :
    pydanticBuild d = .error (e :: es) := by
  unfold pydanticBuild
  rw [hchk]

theorem pydanticBuild_privacy {d : JObj} {e : FieldError} {es : List FieldError}
    (hchk : checkTopLevel d = []) (hpriv : privacy_compliance_check d = e :: es) :
    pydanticBuild d = .error (e :: es) := by
  unfold pydanticBuild
  rw [hchk, hpriv]

theorem runPydantic_ok {d : JObj} {p : ProfileOk} {strict : Bool} {errors warnings : List String}
    (h : pydanticBuild d = .ok p) :
    runPydantic d strict errors warnings = ⟨true, some p, [], warnings⟩ := by
  simp only [runPydantic, h]

theorem runPydantic_err_strict {d : JObj} {fe : List FieldError} {errors warnings : List String}
    (h : pydanticBuild d = .error fe) :
    runPydantic d true errors warnings =
      ⟨false, none, errors ++ fe.map formatFieldError, warnings⟩ := by
  simp only [runPydantic, h, if_pos]

theorem runPydantic_err_lenient_ok {d : JObj} {fe : List FieldError} {p : ProfileOk}
    {errors warnings : List String}
    (h : pydanticBuild d = .error fe)
    (h2 : pydanticBuild (_clean_invalid_fields d fe) = .ok p) :
    runPydantic d false errors warnings =
      ⟨true, some p, [],
        warnings ++ (errors ++ fe.map formatFieldError).map
          (fun err => "Removed invalid field: " ++ err)⟩ := by
  simp only [runPydantic, h, h2, Bool.false_eq_true, if_false, ite_false]

theorem runPydantic_err_lenient_fail {d : JObj} {fe fe2 : List FieldError}
    {errors warnings : List String}
    (h : pydanticBuild d = .error fe)
    (h2 : pydanticBuild (_clean_invalid_fields d fe) = .error fe2) :
    runPydantic d false errors warnings =
      ⟨false, none,
        (errors ++ fe.map formatFieldError) ++
          ["Failed to clean invalid fields: validation error"],
        warnings⟩ := by
  simp only [runPydantic, h, h2, Bool.false_eq_true, if_false, ite_false]

theorem validate_profile_current {d : JObj} {strict : Bool}
    (hv : jGet "schema_version" d = some (.str PROFILE_SCHEMA_VERSION)) :
    validate_profile d strict = runPydantic d strict [] [] := by
  unfold validate_profile
  rw [hv]
  show validateWithVersion d strict (.str PROFILE_SCHEMA_VERSION) = _
  unfold validateWithVersion
  rw [if_neg (by simp [jvFalsy, PROFILE_SCHEMA_VERSION])]
  show validateVersionStr d strict PROFILE_SCHEMA_VERSION = _
  unfold validateVersionStr
  rw [if_pos rfl]

theorem validate_profile_missing {d : JObj} {strict : Bool}
    (hv : jGet "schema_version" d = none) :
    validate_profile d strict = validateMissingVersion d strict := by
  unfold validate_profile
  rw [hv]

theorem validate_profile_verstr {d : JObj} {cv : String} {strict : Bool}
    (hv : jGet "schema_version" d = some (.str cv)) (hne0 : cv ≠ "") :
    validate_profile d strict = validateVersionStr d strict cv := by
  unfold validate_profile
  rw [hv]
  show validateWithVersion d strict (.str cv) = _
  unfold validateWithVersion
  rw [if_neg (by simp [jvFalsy, hne0])]

theorem validate_profile_incompat {d : JObj} {cv : String}
    (hv : jGet "schema_version" d = some (.str cv)) (hne0 : cv ≠ "")
    (hne1 : cv ≠ PROFILE_SCHEMA_VERSION)
    (hcompat : is_schema_compatible cv PROFILE_SCHEMA_VERSION = false) :
    (validate_profile d true =
      ⟨false, none,
        ["Incompatible schema version: " ++ cv ++ " (current: " ++ PROFILE_SCHEMA_VERSION ++ ")"],
        []⟩) ∧
    (validate_profile d false =
      runPydantic d false
        ["Incompatible schema version: " ++ cv ++ " (current: " ++ PROFILE_SCHEMA_VERSION ++ ")"]
        []) := by
  constructor <;>
  · rw [validate_profile_verstr hv hne0]
    unfold validateVersionStr
    rw [if_neg hne1, hcompat]
    rfl

theorem validate_profile_compat {d : JObj} {cv : String} {strict : Bool}
    (hv : jGet "schema_version" d = some (.str cv)) (hne0 : cv ≠ "")
    (hne1 : cv ≠ PROFILE_SCHEMA_VERSION)
    (hcompat : is_schema_compatible cv PROFILE_SCHEMA_VERSION = true) :
    validate_profile d strict =
      runPydantic (jInsert "schema_version" (.str PROFILE_SCHEMA_VERSION) d) strict []
        ["Migrated schema from " ++ cv ++ " to " ++ PROFILE_SCHEMA_VERSION] := by
  rw [validate_profile_verstr hv hne0]
  unfold validateVersionStr
  rw [if_neg hne1, hcompat]
  have hmig : migrate_profile_schema d = jInsert "schema_version" (.str PROFILE_SCHEMA_VERSION) d := by
    unfold migrate_profile_schema
    rw [hv]
    show (if cv ≠ PROFILE_SCHEMA_VERSION
      then jInsert "schema_version" (.str PROFILE_SCHEMA_VERSION) d else d) = _
    rw [if_pos hne1]
  rw [hmig]
  rfl


theorem jGet_cons {k k2 : String} {v : JValue} {rest : JObj} :
    jGet k (JObj.cons k2 v rest) = if k2 = k then some v else jGet k rest := rfl

theorem jRemove_cons {f k2 : String} {v : JValue} {rest : JObj} :
    jRemove f (JObj.cons k2 v rest) =
      if k2 = f then jRemove f rest else JObj.cons k2 v (jRemove f rest) := rfl

theorem jGet_jRemove_ne {f k : String} (h : f ≠ k) : ∀ d : JObj, jGet k (jRemove f d) = jGet k d
  | .nil => rfl
  | .cons k2 v rest => by
    rw [jRemove_cons]
    by_cases h2 : k2 = f
    · rw [if_pos h2, jGet_jRemove_ne h rest, jGet_cons,
        if_neg (fun h3 : k2 = k => h (h2 ▸ h3))]
    · rw [if_neg h2, jGet_cons, jGet_cons]
      by_cases h3 : k2 = k
      · rw [if_pos h3, if_pos h3]
      · rw [if_neg h3, if_neg h3, jGet_jRemove_ne h rest]

theorem jGet_jRemove_self {f : String} : ∀ d : JObj, jGet f (jRemove f d) = none
  | .nil => rfl
  | .cons k2 v rest => by
    rw [jRemove_cons]
    by_cases h2 : k2 = f
    · rw [if_pos h2]
      exact jGet_jRemove_self rest
    · rw [if_neg h2, jGet_cons, if_neg h2]
      exact jGet_jRemove_self rest

theorem jGet_jInsert_self {k : String} {v : JValue} : ∀ d : JObj, jGet k (jInsert k v d) = some v
  | .nil => by
    show jGet k (JObj.cons k v .nil) = some v
    rw [jGet_cons, if_pos rfl]
  | .cons k2 v2 rest => by
    show jGet k (if k2 = k then JObj.cons k2 v rest else JObj.cons k2 v2 (jInsert k v rest)) =
      some v
    by_cases h2 : k2 = k
    · rw [if_pos h2, jGet_cons, if_pos h2]
    · rw [if_neg h2, jGet_cons, if_neg h2, jGet_jInsert_self rest]

/-- C2 (counterexample): a lenient validation of an otherwise-valid
profile carrying schema version 2.0.0 is NOT rejected — the incompatible
version error is dropped and the profile is accepted. -/
theorem C2_lenient_incompatible_counterexample :
    is_schema_compatible "2.0.0" PROFILE_SCHEMA_VERSION = false ∧
    (validate_profile (jInsert "schema_version" (.str "2.0.0") sampleProfile) false).is_valid
      = true ∧
    (validate_profile (jInsert "schema_version" (.str "2.0.0") sampleProfile) false).errors
      = [] :=
  ⟨by rfl, by rfl, by rfl⟩

/-- C2 (amended): with current version 1.0.0 — a profile already at
1.0.0 validates with zero versioning warnings; a missing version is
assigned 1.0.0 with exactly one warning; a major mismatch or a minor
component above the current one is rejected with an
incompatible-schema-version error in STRICT mode, while in lenient mode
the error is recorded but then dropped if the rest of the profile
validates; any other compatible version is rewritten to 1.0.0 with a
migration warning. -/
theorem C2_schema_version_migration :
    (∀ (d : JObj) (strict : Bool),
      jGet "schema_version" d = some (.str "1.0.0") →
      checkTopLevel d = [] → privacy_compliance_check d = [] →
      validate_profile d strict = ⟨true, some ⟨"1.0.0", d⟩, [], []⟩) ∧
    (∀ (d : JObj) (strict : Bool),
      jGet "schema_version" d = none →
      checkTopLevel (jInsert "schema_version" (.str "1.0.0") d) = [] →
      privacy_compliance_check (jInsert "schema_version" (.str "1.0.0") d) = [] →
      validate_profile d strict =
        ⟨true, some ⟨"1.0.0", jInsert "schema_version" (.str "1.0.0") d⟩, [],
          ["No schema version found, assuming 1.0.0"]⟩) ∧
    (∀ (d : JObj) (cv : String),
      jGet "schema_version" d = some (.str cv) → cv ≠ "" → cv ≠ "1.0.0" →
      is_schema_compatible cv PROFILE_SCHEMA_VERSION = false →
      validate_profile d true =
        ⟨false, none,
          ["Incompatible schema version: " ++ cv ++ " (current: " ++
            PROFILE_SCHEMA_VERSION ++ ")"], []⟩) ∧
    (is_schema_compatible "2.0.0" PROFILE_SCHEMA_VERSION = false ∧
      is_schema_compatible "1.1.0" PROFILE_SCHEMA_VERSION = false) ∧
    (∀ (d : JObj) (cv : String),
      jGet "schema_version" d = some (.str cv) → cv ≠ "" → cv ≠ "1.0.0" →
      is_schema_compatible cv PROFILE_SCHEMA_VERSION = false →
      checkTopLevel d = [] → privacy_compliance_check d = [] →
      validate_profile d false = ⟨true, some ⟨cv, d⟩, [], []⟩) ∧
    (∀ (d : JObj) (cv : String) (strict : Bool),
      jGet "schema_version" d = some (.str cv) → cv ≠ "" → cv ≠ "1.0.0" →
      is_schema_compatible cv PROFILE_SCHEMA_VERSION = true →
      checkTopLevel (jInsert "schema_version" (.str "1.0.0") d) = [] →
      privacy_compliance_check (jInsert "schema_version" (.str "1.0.0") d) = [] →
      validate_profile d strict =
        ⟨true, some ⟨"1.0.0", jInsert "schema_version" (.str "1.0.0") d⟩, [],
          ["Migrated schema from " ++ cv ++ " to " ++ PROFILE_SCHEMA_VERSION]⟩) := by
  refine ⟨?_, ?_, ?_, ⟨by rfl, by rfl⟩, ?_, ?_⟩
  · intro d strict hv hchk hpriv
    rw [validate_profile_current hv, runPydantic_ok (pydanticBuild_ok hchk hpriv hv)]
  · intro d strict hv hchk hpriv
    rw [validate_profile_missing hv]
    unfold validateMissingVersion
    show runPydantic (jInsert "schema_version" (.str "1.0.0") d) strict []
      ["No schema version found, assuming 1.0.0"] = _
    rw [runPydantic_ok (pydanticBuild_ok hchk hpriv (jGet_jInsert_self d))]
  · intro d cv hv hne0 hne1 hcompat
    exact (validate_profile_incompat hv hne0 hne1 hcompat).1
  · intro d cv hv hne0 hne1 hcompat hchk hpriv
    rw [(validate_profile_incompat hv hne0 hne1 hcompat).2,
      runPydantic_ok (pydanticBuild_ok hchk hpriv hv)]
  · intro d cv strict hv hne0 hne1 hcompat hchk hpriv
    rw [validate_profile_compat hv hne0 hne1 hcompat]
    show runPydantic (jInsert "schema_version" (.str "1.0.0") d) strict []
      ["Migrated schema from " ++ cv ++ " to " ++ PROFILE_SCHEMA_VERSION] = _
    rw [runPydantic_ok (pydanticBuild_ok hchk hpriv (jGet_jInsert_self d))]

/-- Witness for the amended C2 at concrete profiles derived from the
sample profile. -/
theorem C2_schema_version_migration_witness :
    (validate_profile sampleProfile true = ⟨true, some ⟨"1.0.0", sampleProfile⟩, [], []⟩) ∧
    (validate_profile (jRemove "schema_version" sampleProfile) true =
      ⟨true, some ⟨"1.0.0",
        jInsert "schema_version" (.str "1.0.0") (jRemove "schema_version" sampleProfile)⟩, [],
        ["No schema version found, assuming 1.0.0"]⟩) ∧
    (validate_profile (jInsert "schema_version" (.str "2.0.0") sampleProfile) true =
      ⟨false, none, ["Incompatible schema version: 2.0.0 (current: 1.0.0)"], []⟩) ∧
    (validate_profile (jInsert "schema_version" (.str "2.0.0") sampleProfile) false =
      ⟨true, some ⟨"2.0.0", jInsert "schema_version" (.str "2.0.0") sampleProfile⟩, [], []⟩) ∧
    (validate_profile (jInsert "schema_version" (.str "1.0.1") sampleProfile) false =
      ⟨true, some ⟨"1.0.0", jInsert "schema_version" (.str "1.0.0")
          (jInsert "schema_version" (.str "1.0.1") sampleProfile)⟩, [],
        ["Migrated schema from 1.0.1 to 1.0.0"]⟩) :=
  ⟨C2_schema_version_migration.1 sampleProfile true (by rfl) (by rfl) (by rfl),
    C2_schema_version_migration.2.1 (jRemove "schema_version" sampleProfile) true (by rfl)
      (by rfl) (by rfl),
    C2_schema_version_migration.2.2.1 (jInsert "schema_version" (.str "2.0.0") sampleProfile)
      "2.0.0" (by rfl) (by decide) (by decide) (by rfl),
    C2_schema_version_migration.2.2.2.2.1
      (jInsert "schema_version" (.str "2.0.0") sampleProfile) "2.0.0" (by rfl) (by decide)
      (by decide) (by rfl) (by rfl) (by rfl),
    C2_schema_version_migration.2.2.2.2.2
      (jInsert "schema_version" (.str "1.0.1") sampleProfile) "1.0.1" false (by rfl)
      (by decide) (by decide) (by rfl) (by rfl) (by rfl)⟩

/-- C5: on a profile at the current schema version with exactly one
top-level field error whose location is a single field name, lenient
validation removes that field, succeeds with the field gone, and demotes
the error to a "Removed invalid field" warning, while strict validation
fails with the same condition formatted as an error. -/
theorem C5_lenient_field_removal :
    ∀ (d : JObj) (e : FieldError) (f : String),
      jGet "schema_version" d = some (.str PROFILE_SCHEMA_VERSION) →
      f ≠ "schema_version" →
      checkTopLevel d = [e] → e.loc = [f] →
      checkTopLevel (jRemove f d) = [] →
      privacy_compliance_check (jRemove f d) = [] →
      validate_profile d false =
          ⟨true, some ⟨PROFILE_SCHEMA_VERSION, jRemove f d⟩, [],
            ["Removed invalid field: " ++ formatFieldError e]⟩ ∧
        jGet f (jRemove f d) = none ∧
        validate_profile d true = ⟨false, none, [formatFieldError e], []⟩ := by
  intro d e f hv hne hchk hloc hchk2 hpriv2
  have hclean : _clean_invalid_fields d [e] = jRemove f d := by
    show (match e.loc with | [fn] => jRemove fn d | _ => d) = jRemove f d
    rw [hloc]
  have hv2 : jGet "schema_version" (jRemove f d) = some (.str PROFILE_SCHEMA_VERSION) := by
    rw [jGet_jRemove_ne hne d]
    exact hv
  have hok : pydanticBuild (_clean_invalid_fields d [e]) =
      .ok ⟨PROFILE_SCHEMA_VERSION, jRemove f d⟩ := by
    rw [hclean]
    exact pydanticBuild_ok hchk2 hpriv2 hv2
  refine ⟨?_, jGet_jRemove_self d, ?_⟩
  · rw [validate_profile_current hv,
      runPydantic_err_lenient_ok (pydanticBuild_err hchk) hok]
    rfl
  · rw [validate_profile_current hv, runPydantic_err_strict (pydanticBuild_err hchk)]
    rfl

/-- Witness for C5: the sample profile with `experience` set to a string
instead of a list. -/
theorem C5_lenient_field_removal_witness :
    validate_profile (jInsert "experience" (.str "oops") sampleProfile) false =
        ⟨true, some ⟨PROFILE_SCHEMA_VERSION,
          jRemove "experience" (jInsert "experience" (.str "oops") sampleProfile)⟩, [],
          ["Removed invalid field: " ++
            formatFieldError ⟨["experience"], "Input should be a valid list"⟩]⟩ ∧
      jGet "experience"
          (jRemove "experience" (jInsert "experience" (.str "oops") sampleProfile)) = none ∧
      validate_profile (jInsert "experience" (.str "oops") sampleProfile) true =
        ⟨false, none,
          [formatFieldError ⟨["experience"], "Input should be a valid list"⟩], []⟩ :=
  C5_lenient_field_removal (jInsert "experience" (.str "oops") sampleProfile)
    ⟨["experience"], "Input should be a valid list"⟩ "experience"
    (by rfl) (by decide) (by rfl) (by rfl) (by rfl) (by rfl)

/-- C1 (counterexample): a prohibited key nested inside a LIST under
`additional_sections` escapes `check_dict_for_prohibited`, which recurses
only into dictionaries — the profile is accepted as valid in both modes
even though the spec notion of a prohibited key at any nesting depth
holds. -/
theorem C1_list_nesting_counterexample :
    specProhibitedInObj (JObj.ofList
      [("x", .arr (JArr.ofList [.obj (JObj.ofList [("age", .num 30)])]))]) = true ∧
    (validate_profile (jInsert "additional_sections"
        (.obj (JObj.ofList
          [("x", .arr (JArr.ofList [.obj (JObj.ofList [("age", .num 30)])]))]))
        sampleProfile) true).is_valid = true ∧
    (validate_profile (jInsert "additional_sections"
        (.obj (JObj.ofList
          [("x", .arr (JArr.ofList [.obj (JObj.ofList [("age", .num 30)])]))]))
        sampleProfile) false).is_valid = true :=
  ⟨by rfl, by rfl, by rfl⟩

/-- C1 (amended): when a prohibited key is reachable from
`additional_sections` through DICTIONARY nesting only (the code does not
recurse into lists), and the profile otherwise passes field validation at
the current schema version, `validate_profile` reports the
privacy-violation error and returns no valid profile in both strict and
lenient modes; and every dictionary produced by
`_transform_parser_output` carries no `additional_sections` key at all,
so its privacy check passes vacuously. -/
theorem C1_privacy_amended :
    (∀ (d o : JObj) (p : String),
      jGet "schema_version" d = some (.str PROFILE_SCHEMA_VERSION) →
      checkTopLevel d = [] →
      jGet "additional_sections" d = some (.obj o) →
      check_dict_for_prohibited o "additional_sections" = some p →
      validate_profile d true =
          ⟨false, none,
            [formatFieldError
              ⟨[], "Value error, Prohibited derived PII field detected: " ++ p⟩], []⟩ ∧
        validate_profile d false =
          ⟨false, none,
            [formatFieldError
              ⟨[], "Value error, Prohibited derived PII field detected: " ++ p⟩,
             "Failed to clean invalid fields: validation error"], []⟩) ∧
    (∀ (pr : JObj) (now : String) (d : JObj),
      _transform_parser_output pr now = some d →
      jGet "additional_sections" d = none ∧ privacy_compliance_check d = []) := by
  constructor
  · intro d o p hv hchk hadd hscan
    cases o with
    | nil => exact Option.noConfusion hscan
    | cons k v rest =>
      have hpriv : privacy_compliance_check d =
          [⟨[], "Value error, Prohibited derived PII field detected: " ++ p⟩] := by
        unfold privacy_compliance_check
        rw [hadd]
        show (match check_dict_for_prohibited (JObj.cons k v rest) "additional_sections" with
          | some p2 =>
            [(⟨[], "Value error, Prohibited derived PII field detected: " ++ p2⟩ : FieldError)]
          | none => []) = _
        rw [hscan]
      have he : pydanticBuild d =
          .error [⟨[], "Value error, Prohibited derived PII field detected: " ++ p⟩] :=
        pydanticBuild_privacy hchk hpriv
      have he2 : pydanticBuild (_clean_invalid_fields d
          [⟨[], "Value error, Prohibited derived PII field detected: " ++ p⟩]) =
          .error [⟨[], "Value error, Prohibited derived PII field detected: " ++ p⟩] := he
      refine ⟨?_, ?_⟩
      · rw [validate_profile_current hv, runPydantic_err_strict he]
        rfl
      · rw [validate_profile_current hv, runPydantic_err_lenient_fail he he2]
        rfl
  · intro pr now d h
    unfold _transform_parser_output at h
    dsimp only at h
    repeat' (first | (exact Option.noConfusion h) | split at h)
    all_goals injection h with h2
    all_goals subst h2
    all_goals exact ⟨rfl, rfl⟩

/-- Witness for the amended C1: a profile whose `additional_sections` is
`{"age": 30}`, and the transform of an empty parser result. -/
theorem C1_privacy_amended_witness :
    validate_profile (jInsert "additional_sections"
        (.obj (JObj.ofList [("age", .num 30)])) sampleProfile) true =
      ⟨false, none,
        ["Field '': Value error, Prohibited derived PII field detected: additional_sections.age"],
        []⟩ ∧
    validate_profile (jInsert "additional_sections"
        (.obj (JObj.ofList [("age", .num 30)])) sampleProfile) false =
      ⟨false, none,
        ["Field '': Value error, Prohibited derived PII field detected: additional_sections.age",
         "Failed to clean invalid fields: validation error"], []⟩ ∧
    jGet "additional_sections" (JObj.ofList [
      ("schema_version", .str "1.0.0"),
      ("generated_at", .str "2025-01-01T00:00:00"),
      ("extraction_method", .str "unknown"),
      ("source_file", .str "unknown.docx"),
      ("contact", .null),
      ("summary", .null),
      ("experience", .arr .nil),
      ("education", .arr .nil),
      ("skills", .arr .nil),
      ("projects", .arr .nil),
      ("achievements", .arr .nil),
      ("metadata", .obj (JObj.ofList [
        ("extractor_version", .str "0.1.0"),
        ("extraction_timestamp", .str "2025-01-01T00:00:00"),
        ("confidence_score", .num 0),
        ("source_file_hash", .null),
        ("file_type", .str "docx"),
        ("sections_detected", .arr .nil)])),
      ("warnings", .arr .nil),
      ("errors", .arr .nil)]) = none :=
  ⟨(C1_privacy_amended.1
      (jInsert "additional_sections" (.obj (JObj.ofList [("age", .num 30)])) sampleProfile)
      (JObj.ofList [("age", .num 30)]) "additional_sections.age"
      (by rfl) (by rfl) (by rfl) (by rfl)).1,
    (C1_privacy_amended.1
      (jInsert "additional_sections" (.obj (JObj.ofList [("age", .num 30)])) sampleProfile)
      (JObj.ofList [("age", .num 30)]) "additional_sections.age"
      (by rfl) (by rfl) (by rfl) (by rfl)).2,
    (C1_privacy_amended.2 JObj.nil "2025-01-01T00:00:00" (JObj.ofList [
      ("schema_version", .str "1.0.0"),
      ("generated_at", .str "2025-01-01T00:00:00"),
      ("extraction_method", .str "unknown"),
      ("source_file", .str "unknown.docx"),
      ("contact", .null),
      ("summary", .null),
      ("experience", .arr .nil),
      ("education", .arr .nil),
      ("skills", .arr .nil),
      ("projects", .arr .nil),
      ("achievements", .arr .nil),
      ("metadata", .obj (JObj.ofList [
        ("extractor_version", .str "0.1.0"),
        ("extraction_timestamp", .str "2025-01-01T00:00:00"),
        ("confidence_score", .num 0),
        ("source_file_hash", .null),
        ("file_type", .str "docx"),
        ("sections_detected", .arr .nil)])),
      ("warnings", .arr .nil),
      ("errors", .arr .nil)]) (by rfl)).1⟩

theorem parseResumeSuccess_status (env : RouterEnv) (jid : String) (r : JObj)
    (ev : List MetricEvent) :
    (parseResumeSuccess env jid r ev).1.status = "completed" ∨
      (parseResumeSuccess env jid r ev).1.status = "failed" := by
  unfold parseResumeSuccess
  dsimp only
  split
  · left
    rfl
  · right
    rfl

theorem parseResumeWithType_status (env : RouterEnv) (jid p ft : String)
    (ev : List MetricEvent) :
    (parseResumeWithType env jid p ft ev).1.status = "completed" ∨
      (parseResumeWithType env jid p ft ev).1.status = "failed" := by
  unfold parseResumeWithType
  split
  · split
    · apply parseResumeSuccess_status
    · right
      rfl
  · split
    · apply parseResumeSuccess_status
    · right
      rfl

theorem parseResumeResolved_status (env : RouterEnv) (rid : Option String)
    (jid p : String) :
    (parseResumeResolved env rid jid p).1.status = "completed" ∨
      (parseResumeResolved env rid jid p).1.status = "failed" := by
  unfold parseResumeResolved
  split
  · right
    rfl
  · apply parseResumeWithType_status

/-- C7: the router always returns a job response with a definite status;
an unsupported detected file type yields a failed response (after the
parse-start event, with no failure event); an extractor error is caught
and yields a failed response plus a parse-failure metric event carrying
the error kind and the elapsed duration; and file-type detection decides
by extension first, consulting the MIME type only when the extension is
not recognised. -/
theorem C7_router_error_containment :
    (∀ (env : RouterEnv) (rid fp : Option String) (jid : String),
      (parse_resume env rid fp jid).1.status = "completed" ∨
        (parse_resume env rid fp jid).1.status = "failed") ∧
    (∀ (env : RouterEnv) (rid : Option String) (jid p : String),
      env.fileExists p = true →
      parserDetectFileType env p ≠ "docx" →
      parserDetectFileType env p ≠ "pdf" →
      parserDetectFileType env p ≠ "txt" →
      parse_resume env rid (some p) jid =
        (⟨jid, "failed", none,
          some ("Unsupported file type: " ++ parserDetectFileType env p)⟩,
         [.parse_start (rid.getD "direct_file") (parserDetectFileType env p)
            (env.fileSize p)])) ∧
    (∀ (env : RouterEnv) (rid : Option String) (jid p : String) (e : ExtractorFailure),
      env.fileExists p = true →
      (parserDetectFileType env p = "docx" ∨ parserDetectFileType env p = "pdf") →
      env.extract (parserDetectFileType env p) p = .error e →
      parse_resume env rid (some p) jid =
        (⟨jid, "failed", none, some (e.error_type ++ ": " ++ e.message)⟩,
         [.parse_start (rid.getD "direct_file") (parserDetectFileType env p)
            (env.fileSize p),
          .parse_failure env.traceId (env.endMs - env.startMs) e.error_type])) ∧
    (∀ (env : RouterEnv) (p : String),
      (pathSuffixLower p = ".docx" → parserDetectFileType env p = "docx") ∧
      (pathSuffixLower p = ".pdf" → parserDetectFileType env p = "pdf") ∧
      (pathSuffixLower p = ".txt" ∨ pathSuffixLower p = ".text" →
        parserDetectFileType env p = "txt")) ∧
    (∀ (env : RouterEnv) (p : String),
      pathSuffixLower p ≠ ".docx" → pathSuffixLower p ≠ ".pdf" →
      pathSuffixLower p ≠ ".txt" → pathSuffixLower p ≠ ".text" →
      parserDetectFileType env p =
        (match env.mimeType p with
         | some mime =>
           if containsSub "openxmlformats".data mime.data ||
               containsSub "wordprocessingml".data mime.data then "docx"
           else if containsSub "pdf".data mime.data then "pdf"
           else if containsSub "text".data mime.data then "txt"
           else "unknown"
         | none => "unknown")) := by
  refine ⟨?_, ?_, ?_, ?_, ?_⟩
  · intro env rid fp jid
    unfold parse_resume
    repeat' split
    all_goals first
      | (right
         rfl)
      | apply parseResumeResolved_status
  · intro env rid jid p hex h1 h2 h3
    show parseResumeResolved env rid jid p = _
    unfold parseResumeResolved
    rw [if_neg (show ¬((!env.fileExists p) = true) from by simp [hex])]
    unfold parseResumeWithType
    rw [if_neg (show ¬((parserDetectFileType env p = "docx" ||
        parserDetectFileType env p = "pdf") = true) from by simp [h1, h2]),
      if_neg h3]
  · intro env rid jid p e hex hft hextract
    show parseResumeResolved env rid jid p = _
    unfold parseResumeResolved
    rw [if_neg (show ¬((!env.fileExists p) = true) from by simp [hex])]
    unfold parseResumeWithType
    rw [if_pos (show (parserDetectFileType env p = "docx" ||
        parserDetectFileType env p = "pdf") = true from by
          rcases hft with h | h
          · simp [h]
          · simp [h]),
      hextract]
    rfl
  · intro env p
    unfold parserDetectFileType
    dsimp only
    refine ⟨?_, ?_, ?_⟩
    · intro h
      rw [if_pos h]
    · intro h
      rw [if_neg (show ¬(pathSuffixLower p = ".docx") from by simp [h]),
        if_pos h]
    · intro h
      have hnd : pathSuffixLower p ≠ ".docx" := by
        rcases h with h | h <;> simp [h]
      have hnp : pathSuffixLower p ≠ ".pdf" := by
        rcases h with h | h <;> simp [h]
      rw [if_neg hnd, if_neg hnp,
        if_pos (show (pathSuffixLower p = ".txt" ||
            pathSuffixLower p = ".text") = true from by
          rcases h with h | h
          · simp [h]
          · simp [h])]
  · intro env p h1 h2 h3 h4
    unfold parserDetectFileType
    dsimp only
    rw [if_neg h1, if_neg h2,
      if_neg (show ¬((pathSuffixLower p = ".txt" ||
        pathSuffixLower p = ".text") = true) from by simp [h3, h4])]

/-- Witness for C7: a stub environment with an always-failing extractor,
an unknown extension, and a MIME oracle that contradicts the
extension. -/
theorem C7_router_error_containment_witness :
    ((parse_resume stubEnv none none "job0").1.status = "completed" ∨
      (parse_resume stubEnv none none "job0").1.status = "failed") ∧
    parse_resume stubEnv none (some "resume.xyz") "job1" =
      (⟨"job1", "failed", none, some "Unsupported file type: unknown"⟩,
       [.parse_start "direct_file" "unknown" 100]) ∧
    parse_resume stubEnv none (some "resume.pdf") "job2" =
      (⟨"job2", "failed", none, some "ExtractionError: Corrupted file"⟩,
       [.parse_start "direct_file" "pdf" 100,
        .parse_failure "trace-1" (stubEnv.endMs - stubEnv.startMs) "ExtractionError"]) ∧
    parserDetectFileType lyingMimeEnv "resume.DOCX" = "docx" :=
  ⟨C7_router_error_containment.1 stubEnv none none "job0",
    C7_router_error_containment.2.1 stubEnv none "job1" "resume.xyz"
      (by rfl) (by decide) (by decide) (by decide),
    C7_router_error_containment.2.2.1 stubEnv none "job2" "resume.pdf"
      ⟨"ExtractionError", "Corrupted file"⟩ (by rfl) (Or.inr (by rfl)) (by rfl),
    (C7_router_error_containment.2.2.2.1 lyingMimeEnv "resume.DOCX").1 (by rfl)⟩

theorem charEqOfToNat {a b : Char} (h : a.toNat = b.toNat) : a = b := by
  rw [← Char.ofNat_toNat a, ← Char.ofNat_toNat b, h]

theorem toNat_ofNat_valid {n : Nat} (h : n.isValidChar) : (Char.ofNat n).toNat = n := by
  unfold Char.ofNat
  rw [dif_pos h]
  rfl

theorem toNat_toLower (c : Char) :
    c.toLower.toNat = if 65 ≤ c.toNat ∧ c.toNat ≤ 90 then c.toNat + 32 else c.toNat := by
  unfold Char.toLower
  dsimp only
  split
  · rename_i h
    exact toNat_ofNat_valid (Or.inl (by omega))
  · rfl

theorem toNat_toUpper (c : Char) :
    c.toUpper.toNat = if 97 ≤ c.toNat ∧ c.toNat ≤ 122 then c.toNat - 32 else c.toNat := by
  unfold Char.toUpper
  dsimp only
  split
  · rename_i h
    exact toNat_ofNat_valid (Or.inl (by omega))
  · rfl

theorem toLower_toLower (c : Char) : c.toLower.toLower = c.toLower := by
  apply charEqOfToNat
  rw [toNat_toLower, toNat_toLower]
  split_ifs <;> omega

theorem toUpper_toLower (c : Char) : c.toLower.toUpper = c.toUpper := by
  apply charEqOfToNat
  rw [toNat_toUpper, toNat_toLower, toNat_toUpper]
  split_ifs <;> omega

theorem toLower_toUpper (c : Char) : c.toUpper.toLower = c.toLower := by
  apply charEqOfToNat
  rw [toNat_toLower, toNat_toUpper, toNat_toLower]
  split_ifs <;> omega

theorem isPyAlpha_toLower (c : Char) : isPyAlpha c.toLower = isPyAlpha c := by
  rw [Bool.eq_iff_iff]
  simp only [isPyAlpha, Bool.or_eq_true, Bool.and_eq_true, decide_eq_true_eq, toNat_toLower]
  split_ifs <;> omega

theorem titleAux_lower : ∀ (b : Bool) (l : List Char),
    titleAux b (lowerChars l) = titleAux b l
  | _, [] => rfl
  | b, c :: cs => by
    show titleAux b (c.toLower :: lowerChars cs) = titleAux b (c :: cs)
    unfold titleAux
    rw [isPyAlpha_toLower]
    by_cases h : isPyAlpha c = true
    · rw [if_pos h, if_pos h, titleAux_lower true cs]
      cases b
      · rw [if_neg (by simp), if_neg (by simp), toUpper_toLower]
      · rw [if_pos rfl, if_pos rfl, toLower_toLower]
    · rw [if_neg h, if_neg h, titleAux_lower false cs]
      have hc : c.toLower = c := by
        apply charEqOfToNat
        rw [toNat_toLower]
        simp only [isPyAlpha, Bool.or_eq_true, Bool.and_eq_true, decide_eq_true_eq] at h
        rw [if_neg (by omega)]
      rw [hc]

theorem lower_titleAux : ∀ (b : Bool) (l : List Char),
    lowerChars (titleAux b l) = lowerChars l
  | _, [] => rfl
  | b, c :: cs => by
    show lowerChars (titleAux b (c :: cs)) = c.toLower :: lowerChars cs
    unfold titleAux
    by_cases h : isPyAlpha c = true
    · rw [if_pos h]
      cases b
      · rw [if_neg (by simp)]
        show (c.toUpper).toLower :: lowerChars (titleAux true cs) = _
        rw [toLower_toUpper, lower_titleAux true cs]
      · rw [if_pos rfl]
        show (c.toLower).toLower :: lowerChars (titleAux true cs) = _
        rw [toLower_toLower, lower_titleAux true cs]
    · rw [if_neg h]
      show c.toLower :: lowerChars (titleAux false cs) = _
      rw [lower_titleAux false cs]

theorem pyTitle_pyLower (s : String) : pyTitle (pyLower s) = pyTitle s := by
  show (⟨titleAux false (lowerChars s.data)⟩ : String) = ⟨titleAux false s.data⟩
  rw [titleAux_lower]

theorem pyLower_pyTitle (s : String) : pyLower (pyTitle s) = pyLower s := by
  show (⟨lowerChars (titleAux false s.data)⟩ : String) = ⟨lowerChars s.data⟩
  rw [lower_titleAux]

theorem charsLe_total : ∀ (a b : List Char), charsLe a b = true ∨ charsLe b a = true
  | [], _ => Or.inl rfl
  | _ :: _, [] => Or.inr rfl
  | a :: as, b :: bs => by
    unfold charsLe
    by_cases h1 : a.toNat < b.toNat
    · left
      rw [if_pos h1]
    · by_cases h2 : b.toNat < a.toNat
      · right
        rw [if_pos h2]
      · rw [if_neg h1, if_neg h2, if_neg h2, if_neg h1]
        exact charsLe_total as bs

theorem charsLe_trans : ∀ (a b c : List Char),
    charsLe a b = true → charsLe b c = true → charsLe a c = true
  | [], _, _, _, _ => rfl
  | _ :: _, [], _, h1, _ => by simp [charsLe] at h1
  | _ :: _, _ :: _, [], _, h2 => by simp [charsLe] at h2
  | a :: as, b :: bs, c :: cs, h1, h2 => by
    unfold charsLe at h1 h2 ⊢
    by_cases hab : a.toNat < b.toNat
    · by_cases hbc : b.toNat < c.toNat
      · rw [if_pos (by omega : a.toNat < c.toNat)]
      · rw [if_neg hbc] at h2
        by_cases hcb : c.toNat < b.toNat
        · rw [if_pos hcb] at h2
          exact absurd h2 (by simp)
        · rw [if_pos (by omega : a.toNat < c.toNat)]
    · rw [if_neg hab] at h1
      by_cases hba : b.toNat < a.toNat
      · rw [if_pos hba] at h1
        exact absurd h1 (by simp)
      · rw [if_neg hba] at h1
        by_cases hbc : b.toNat < c.toNat
        · rw [if_pos (by omega : a.toNat < c.toNat)]
        · rw [if_neg hbc] at h2
          by_cases hcb : c.toNat < b.toNat
          · rw [if_pos hcb] at h2
            exact absurd h2 (by simp)
          · rw [if_neg hcb] at h2
            rw [if_neg (by omega : ¬(a.toNat < c.toNat)),
              if_neg (by omega : ¬(c.toNat < a.toNat))]
            exact charsLe_trans as bs cs h1 h2

theorem charsLe_antisymm : ∀ (a b : List Char),
    charsLe a b = true → charsLe b a = true → a = b
  | [], [], _, _ => rfl
  | [], _ :: _, _, h2 => by simp [charsLe] at h2
  | _ :: _, [], h1, _ => by simp [charsLe] at h1
  | a :: as, b :: bs, h1, h2 => by
    unfold charsLe at h1 h2
    by_cases hab : a.toNat < b.toNat
    · rw [if_neg (by omega : ¬(b.toNat < a.toNat)), if_pos hab] at h2
      exact absurd h2 (by simp)
    · by_cases hba : b.toNat < a.toNat
      · rw [if_neg hab, if_pos hba] at h1
        exact absurd h1 (by simp)
      · rw [if_neg hab, if_neg hba] at h1
        rw [if_neg hba, if_neg hab] at h2
        rw [charEqOfToNat (by omega : a.toNat = b.toNat), charsLe_antisymm as bs h1 h2]

theorem strLe_total (a b : String) : strLe a b = true ∨ strLe b a = true :=
  charsLe_total a.data b.data

theorem strLe_trans {a b c : String} (h1 : strLe a b = true) (h2 : strLe b c = true) :
    strLe a c = true :=
  charsLe_trans a.data b.data c.data h1 h2

theorem strLe_antisymm {a b : String} (h1 : strLe a b = true) (h2 : strLe b a = true) :
    a = b :=
  String.ext (charsLe_antisymm a.data b.data h1 h2)

theorem skillKeyLe_total (a b : SkillEntrySchema) :
    skillKeyLe a b = true ∨ skillKeyLe b a = true := by
  unfold skillKeyLe
  dsimp only
  by_cases h : (skillSortKey a).1 = (skillSortKey b).1
  · rw [if_pos h, if_pos h.symm]
    exact strLe_total _ _
  · rw [if_neg h, if_neg (fun e => h e.symm)]
    exact strLe_total _ _

theorem skillKeyLe_trans {a b c : SkillEntrySchema}
    (h1 : skillKeyLe a b = true) (h2 : skillKeyLe b c = true) :
    skillKeyLe a c = true := by
  unfold skillKeyLe at h1 h2 ⊢
  dsimp only at h1 h2 ⊢
  by_cases hab : (skillSortKey a).1 = (skillSortKey b).1
  · rw [if_pos hab] at h1
    by_cases hbc : (skillSortKey b).1 = (skillSortKey c).1
    · rw [if_pos hbc] at h2
      rw [if_pos (hab.trans hbc)]
      exact strLe_trans h1 h2
    · rw [if_neg hbc] at h2
      rw [if_neg (fun e => hbc (hab.symm.trans e)), hab]
      exact h2
  · rw [if_neg hab] at h1
    by_cases hbc : (skillSortKey b).1 = (skillSortKey c).1
    · rw [if_pos hbc] at h2
      rw [if_neg (fun e => hab (e.trans hbc.symm)), ← hbc]
      exact h1
    · rw [if_neg hbc] at h2
      by_cases hac : (skillSortKey a).1 = (skillSortKey c).1
      · rw [← hac] at h2
        exact absurd (strLe_antisymm h1 h2) hab
      · rw [if_neg hac]
        exact strLe_trans h1 h2

theorem stableInsert_perm (le : α → α → Bool) (a : α) :
    ∀ l : List α, (stableInsert le a l).Perm (a :: l)
  | [] => List.Perm.refl _
  | b :: bs => by
    unfold stableInsert
    by_cases h : le b a = true
    · rw [if_pos h]
      exact ((stableInsert_perm le a bs).cons b).trans (List.Perm.swap a b bs)
    · rw [if_neg h]

theorem stableSortGo_perm (le : α → α → Bool) :
    ∀ (l acc : List α), (stableSortGo le acc l).Perm (acc ++ l)
  | [], acc => by simp [stableSortGo]
  | a :: as, acc => by
    show (stableSortGo le (stableInsert le a acc) as).Perm _
    refine ((stableSortGo_perm le as (stableInsert le a acc)).trans ?_)
    refine ((stableInsert_perm le a acc).append_right as).trans ?_
    exact List.perm_middle.symm

theorem stableSort_perm (le : α → α → Bool) (l : List α) : (stableSort le l).Perm l :=
  stableSortGo_perm le l []

theorem mem_stableInsert {le : α → α → Bool} {a x : α} {l : List α} :
    x ∈ stableInsert le a l ↔ x = a ∨ x ∈ l := by
  have h := (stableInsert_perm le a l).mem_iff (a := x)
  simpa using h

theorem stableInsert_pairwise {le : α → α → Bool}
    (htot : ∀ a b, le a b = true ∨ le b a = true)
    (htr : ∀ {a b c}, le a b = true → le b c = true → le a c = true)
    {a : α} : ∀ {l : List α}, l.Pairwise (fun x y => le x y = true) →
      (stableInsert le a l).Pairwise (fun x y => le x y = true)
  | [], _ => by
    unfold stableInsert
    exact List.pairwise_singleton _ _
  | b :: bs, hp => by
    unfold stableInsert
    rcases List.pairwise_cons.mp hp with ⟨hb, hbs⟩
    by_cases h : le b a = true
    · rw [if_pos h]
      refine List.pairwise_cons.mpr ⟨?_, stableInsert_pairwise htot htr hbs⟩
      intro x hx
      rcases mem_stableInsert.mp hx with rfl | hx2
      · exact h
      · exact hb x hx2
    · rw [if_neg h]
      have hab : le a b = true := by
        rcases htot a b with h2 | h2
        · exact h2
        · exact absurd h2 h
      refine List.pairwise_cons.mpr ⟨?_, hp⟩
      intro x hx
      rcases List.mem_cons.mp hx with rfl | hx2
      · exact hab
      · exact htr hab (hb x hx2)

theorem stableSortGo_pairwise {le : α → α → Bool}
    (htot : ∀ a b, le a b = true ∨ le b a = true)
    (htr : ∀ {a b c}, le a b = true → le b c = true → le a c = true) :
    ∀ (l acc : List α), acc.Pairwise (fun x y => le x y = true) →
      (stableSortGo le acc l).Pairwise (fun x y => le x y = true)
  | [], _, h => h
  | a :: as, acc, h =>
    stableSortGo_pairwise htot htr as (stableInsert le a acc)
      (stableInsert_pairwise htot htr h)

theorem stableSort_pairwise {le : α → α → Bool}
    (htot : ∀ a b, le a b = true ∨ le b a = true)
    (htr : ∀ {a b c}, le a b = true → le b c = true → le a c = true)
    (l : List α) : (stableSort le l).Pairwise (fun x y => le x y = true) :=
  stableSortGo_pairwise htot htr l [] List.Pairwise.nil

theorem dictGet_mem_values {k : String} {d : List (String × SkillInfo)} {i : SkillInfo}
    (h : dictGet k d = some i) : ∃ p ∈ d, p.2 = i := by
  unfold dictGet at h
  cases hf : d.find? (fun p => p.1 = k) with
  | none =>
    rw [hf] at h
    exact Option.noConfusion h
  | some p =>
    rw [hf] at h
    refine ⟨p, List.mem_of_find?_eq_some hf, ?_⟩
    injection h

theorem aliasValsSub :
    ∀ p ∈ alias_to_canonical, p.2 ∈ SKILL_ALIASES.map (fun q => q.2) := by decide

theorem canonInj :
    ∀ i1 ∈ SKILL_ALIASES.map (fun q => q.2), ∀ i2 ∈ SKILL_ALIASES.map (fun q => q.2),
      pyLower i1.canonical = pyLower i2.canonical → i1.canonical = i2.canonical := by decide

theorem canonKeyPresent :
    ∀ i ∈ SKILL_ALIASES.map (fun q => q.2),
      (dictGet (pyLower i.canonical) alias_to_canonical).isSome = true := by decide

theorem normalize_skill_canonical (r ctx : String) :
    (normalize_skill r ctx).canonical_name =
      (match dictGet (pyLower (_clean_skill_name r)) alias_to_canonical with
       | some info => info.canonical
       | none => pyTitle (_clean_skill_name r)) := by
  unfold normalize_skill
  dsimp only
  split <;> rfl

theorem canonical_of_key {r1 r2 c1 c2 : String}
    (h : pyLower (normalize_skill r1 c1).canonical_name =
      pyLower (normalize_skill r2 c2).canonical_name) :
    (normalize_skill r1 c1).canonical_name = (normalize_skill r2 c2).canonical_name := by
  rw [normalize_skill_canonical r1 c1, normalize_skill_canonical r2 c2] at h ⊢
  cases h1 : dictGet (pyLower (_clean_skill_name r1)) alias_to_canonical with
  | some i1 =>
    rcases dictGet_mem_values h1 with ⟨p1, hp1, he1⟩
    cases h2 : dictGet (pyLower (_clean_skill_name r2)) alias_to_canonical with
    | some i2 =>
      rw [h1, h2] at h
      rcases dictGet_mem_values h2 with ⟨p2, hp2, he2⟩
      subst he1
      subst he2
      have h2 : pyLower p1.2.canonical = pyLower p2.2.canonical := h
      show p1.2.canonical = p2.2.canonical
      exact canonInj _ (aliasValsSub p1 hp1) _ (aliasValsSub p2 hp2) h2
    | none =>
      exfalso
      rw [h1, h2] at h
      subst he1
      have h3 : pyLower p1.2.canonical = pyLower (pyTitle (_clean_skill_name r2)) := h
      have hk := canonKeyPresent _ (aliasValsSub p1 hp1)
      rw [show pyLower p1.2.canonical = pyLower (_clean_skill_name r2) from
        h3.trans (pyLower_pyTitle _), h2] at hk
      simp at hk
  | none =>
    cases h2 : dictGet (pyLower (_clean_skill_name r2)) alias_to_canonical with
    | some i2 =>
      exfalso
      rw [h1, h2] at h
      rcases dictGet_mem_values h2 with ⟨p2, hp2, he2⟩
      subst he2
      have h3 : pyLower (pyTitle (_clean_skill_name r1)) = pyLower p2.2.canonical := h
      have hk := canonKeyPresent _ (aliasValsSub p2 hp2)
      rw [show pyLower p2.2.canonical = pyLower (_clean_skill_name r1) from
        h3.symm.trans (pyLower_pyTitle _), h1] at hk
      simp at hk
    | none =>
      rw [h1, h2] at h
      have h3 : pyLower (pyTitle (_clean_skill_name r1)) =
          pyLower (pyTitle (_clean_skill_name r2)) := h
      show pyTitle (_clean_skill_name r1) = pyTitle (_clean_skill_name r2)
      rw [pyLower_pyTitle, pyLower_pyTitle] at h3
      rw [← pyTitle_pyLower (_clean_skill_name r1), h3, pyTitle_pyLower]

theorem normalizeLoop_cons_blank {ctx raw : String} {seen rest : List String}
    (h : pyStrip raw = "") :
    normalizeLoop ctx seen (raw :: rest) = normalizeLoop ctx seen rest := by
  conv_lhs => rw [normalizeLoop]
  rw [if_pos h]

theorem normalizeLoop_cons_seen {ctx raw : String} {seen rest : List String}
    (h : pyStrip raw ≠ "")
    (h2 : pyLower (normalize_skill raw ctx).canonical_name ∈ seen) :
    normalizeLoop ctx seen (raw :: rest) = normalizeLoop ctx seen rest := by
  conv_lhs => rw [normalizeLoop]
  rw [if_neg h]
  dsimp only
  rw [if_pos h2]

theorem normalizeLoop_cons_new {ctx raw : String} {seen rest : List String}
    (h : pyStrip raw ≠ "")
    (h2 : pyLower (normalize_skill raw ctx).canonical_name ∉ seen) :
    normalizeLoop ctx seen (raw :: rest) =
      normalize_skill raw ctx ::
        normalizeLoop ctx (pyLower (normalize_skill raw ctx).canonical_name :: seen) rest := by
  conv_lhs => rw [normalizeLoop]
  rw [if_neg h]
  dsimp only
  rw [if_neg h2]

theorem normalizeLoop_entries (ctx : String) :
    ∀ (l seen : List String) (e : SkillEntrySchema), e ∈ normalizeLoop ctx seen l →
      ∃ raw, raw ∈ l ∧ pyStrip raw ≠ "" ∧ e = normalize_skill raw ctx
  | [], _, e, h => by simp [normalizeLoop] at h
  | raw :: rest, seen, e, h => by
    by_cases hb : pyStrip raw = ""
    · rw [normalizeLoop_cons_blank hb] at h
      rcases normalizeLoop_entries ctx rest seen e h with ⟨r, hr, hs, he⟩
      exact ⟨r, List.mem_cons_of_mem _ hr, hs, he⟩
    · by_cases hseen : pyLower (normalize_skill raw ctx).canonical_name ∈ seen
      · rw [normalizeLoop_cons_seen hb hseen] at h
        rcases normalizeLoop_entries ctx rest seen e h with ⟨r, hr, hs, he⟩
        exact ⟨r, List.mem_cons_of_mem _ hr, hs, he⟩
      · rw [normalizeLoop_cons_new hb hseen] at h
        rcases List.mem_cons.mp h with rfl | h2
        · exact ⟨raw, List.mem_cons_self _ _, hb, rfl⟩
        · rcases normalizeLoop_entries ctx rest _ e h2 with ⟨r, hr, hs, he⟩
          exact ⟨r, List.mem_cons_of_mem _ hr, hs, he⟩

theorem normalizeLoop_key_mem (ctx : String) :
    ∀ (l seen : List String) (raw : String), raw ∈ l → pyStrip raw ≠ "" →
      pyLower (normalize_skill raw ctx).canonical_name ∉ seen →
      ∃ e, e ∈ normalizeLoop ctx seen l ∧
        pyLower e.canonical_name = pyLower (normalize_skill raw ctx).canonical_name
  | [], _, raw, h, _, _ => absurd h (List.not_mem_nil raw)
  | r :: rest, seen, raw, h, hs, hns => by
    by_cases hb : pyStrip r = ""
    · rw [normalizeLoop_cons_blank hb]
      rcases List.mem_cons.mp h with rfl | h2
      · exact absurd hb hs
      · exact normalizeLoop_key_mem ctx rest seen raw h2 hs hns
    · by_cases hseen : pyLower (normalize_skill r ctx).canonical_name ∈ seen
      · rw [normalizeLoop_cons_seen hb hseen]
        rcases List.mem_cons.mp h with rfl | h2
        · exact absurd hseen hns
        · exact normalizeLoop_key_mem ctx rest seen raw h2 hs hns
      · rw [normalizeLoop_cons_new hb hseen]
        by_cases hk : pyLower (normalize_skill r ctx).canonical_name =
            pyLower (normalize_skill raw ctx).canonical_name
        · exact ⟨normalize_skill r ctx, List.mem_cons_self _ _, hk⟩
        · rcases List.mem_cons.mp h with rfl | h2
          · exact absurd rfl hk
          · rcases normalizeLoop_key_mem ctx rest _ raw h2 hs
              (by
                intro hmem
                rcases List.mem_cons.mp hmem with he | he
                · exact hk he.symm
                · exact hns he) with ⟨e, he, hke⟩
            exact ⟨e, List.mem_cons_of_mem _ he, hke⟩

theorem normalizeLoop_keys_not_seen (ctx : String) :
    ∀ (l seen : List String) (e : SkillEntrySchema), e ∈ normalizeLoop ctx seen l →
      pyLower e.canonical_name ∉ seen
  | [], _, e, h => by simp [normalizeLoop] at h
  | raw :: rest, seen, e, h => by
    by_cases hb : pyStrip raw = ""
    · rw [normalizeLoop_cons_blank hb] at h
      exact normalizeLoop_keys_not_seen ctx rest seen e h
    · by_cases hseen : pyLower (normalize_skill raw ctx).canonical_name ∈ seen
      · rw [normalizeLoop_cons_seen hb hseen] at h
        exact normalizeLoop_keys_not_seen ctx rest seen e h
      · rw [normalizeLoop_cons_new hb hseen] at h
        rcases List.mem_cons.mp h with rfl | h2
        · exact hseen
        · have h3 := normalizeLoop_keys_not_seen ctx rest _ e h2
          intro hmem
          exact h3 (List.mem_cons_of_mem _ hmem)

theorem normalizeLoop_keys_distinct (ctx : String) :
    ∀ (l seen : List String),
      (normalizeLoop ctx seen l).Pairwise
        (fun a b => pyLower a.canonical_name ≠ pyLower b.canonical_name)
  | [], _ => by simp [normalizeLoop]
  | raw :: rest, seen => by
    by_cases hb : pyStrip raw = ""
    · rw [normalizeLoop_cons_blank hb]
      exact normalizeLoop_keys_distinct ctx rest seen
    · by_cases hseen : pyLower (normalize_skill raw ctx).canonical_name ∈ seen
      · rw [normalizeLoop_cons_seen hb hseen]
        exact normalizeLoop_keys_distinct ctx rest seen
      · rw [normalizeLoop_cons_new hb hseen]
        refine List.pairwise_cons.mpr ⟨?_, normalizeLoop_keys_distinct ctx rest _⟩
        intro e he
        have h2 := normalizeLoop_keys_not_seen ctx rest _ e he
        intro heq
        exact h2 (by
          rw [← heq]
          exact List.mem_cons_self _ _)

theorem normalizeLoop_first (ctx : String) :
    ∀ (l1 seen : List String) (raw : String) (l2 : List String),
      pyStrip raw ≠ "" →
      pyLower (normalize_skill raw ctx).canonical_name ∉ seen →
      (∀ r ∈ l1, pyStrip r ≠ "" →
        pyLower (normalize_skill r ctx).canonical_name ≠
          pyLower (normalize_skill raw ctx).canonical_name) →
      normalize_skill raw ctx ∈ normalizeLoop ctx seen (l1 ++ raw :: l2)
  | [], seen, raw, l2, hs, hns, _ => by
    show normalize_skill raw ctx ∈ normalizeLoop ctx seen (raw :: l2)
    rw [normalizeLoop_cons_new hs hns]
    exact List.mem_cons_self _ _
  | r :: l1, seen, raw, l2, hs, hns, hfirst => by
    show normalize_skill raw ctx ∈ normalizeLoop ctx seen (r :: (l1 ++ raw :: l2))
    by_cases hb : pyStrip r = ""
    · rw [normalizeLoop_cons_blank hb]
      exact normalizeLoop_first ctx l1 seen raw l2 hs hns
        (fun x hx => hfirst x (List.mem_cons_of_mem _ hx))
    · by_cases hseen : pyLower (normalize_skill r ctx).canonical_name ∈ seen
      · rw [normalizeLoop_cons_seen hb hseen]
        exact normalizeLoop_first ctx l1 seen raw l2 hs hns
          (fun x hx => hfirst x (List.mem_cons_of_mem _ hx))
      · rw [normalizeLoop_cons_new hb hseen]
        refine List.mem_cons_of_mem _ ?_
        refine normalizeLoop_first ctx l1 _ raw l2 hs ?_
          (fun x hx => hfirst x (List.mem_cons_of_mem _ hx))
        intro hmem
        rcases List.mem_cons.mp hmem with he | he
        · exact hfirst r (List.mem_cons_self _ _) hb he.symm
        · exact hns he

theorem normalize_canonical_mono {l1 l2 : List String} {ctx c : String}
    (hsub : ∀ r ∈ l1, r ∈ l2)
    (h : ∃ e, e ∈ normalize_skills_list l1 ctx ∧ e.canonical_name = c) :
    ∃ e, e ∈ normalize_skills_list l2 ctx ∧ e.canonical_name = c := by
  rcases h with ⟨e, he, rfl⟩
  have he2 : e ∈ normalizeLoop ctx [] l1 := ((stableSort_perm _ _).mem_iff).mp he
  rcases normalizeLoop_entries ctx l1 [] e he2 with ⟨raw, hraw, hs, rfl⟩
  rcases normalizeLoop_key_mem ctx l2 [] raw (hsub raw hraw) hs (List.not_mem_nil _) with
    ⟨e2, hmem, hk⟩
  rcases normalizeLoop_entries ctx l2 [] e2 hmem with ⟨raw2, _, _, rfl⟩
  exact ⟨_, ((stableSort_perm _ _).mem_iff).mpr hmem, canonical_of_key hk⟩

/-- C3: the canonical-name set of `normalize_skills_list` depends only on
the set of raw input strings (order and multiplicity are irrelevant); the
output is sorted by the key (category value, with entries lacking a
category keyed `z_other` and thus last, then canonical name); entries have
pairwise-distinct lower-cased canonical names; and the entry kept for each
canonical name is the normalization of the first raw occurrence mapping to
it. -/
theorem C3_normalize_skills_order :
    (∀ (l1 l2 : List String) (ctx : String),
      (∀ r ∈ l1, r ∈ l2) → (∀ r ∈ l2, r ∈ l1) →
      ∀ c : String,
        (∃ e, e ∈ normalize_skills_list l1 ctx ∧ e.canonical_name = c) ↔
        (∃ e, e ∈ normalize_skills_list l2 ctx ∧ e.canonical_name = c)) ∧
    (∀ (l : List String) (ctx : String),
      (normalize_skills_list l ctx).Pairwise (fun a b => skillKeyLe a b = true)) ∧
    (∀ (l : List String) (ctx : String),
      (normalize_skills_list l ctx).Pairwise
        (fun a b => pyLower a.canonical_name ≠ pyLower b.canonical_name)) ∧
    (∀ (ctx raw : String) (l1 l2 : List String),
      pyStrip raw ≠ "" →
      (∀ r ∈ l1, pyStrip r ≠ "" →
        pyLower (normalize_skill r ctx).canonical_name ≠
          pyLower (normalize_skill raw ctx).canonical_name) →
      normalize_skill raw ctx ∈ normalize_skills_list (l1 ++ raw :: l2) ctx) := by
  refine ⟨?_, ?_, ?_, ?_⟩
  · intro l1 l2 ctx h12 h21 c
    exact ⟨normalize_canonical_mono h12, normalize_canonical_mono h21⟩
  · intro l ctx
    exact stableSort_pairwise skillKeyLe_total (fun h1 h2 => skillKeyLe_trans h1 h2) _
  · intro l ctx
    exact ((stableSort_perm skillKeyLe (normalizeLoop ctx [] l)).pairwise_iff
      (fun h he => h he.symm)).mpr (normalizeLoop_keys_distinct ctx l [])
  · intro ctx raw l1 l2 hs hfirst
    exact ((stableSort_perm _ _).mem_iff).mpr
      (normalizeLoop_first ctx l1 [] raw l2 hs (List.not_mem_nil _) hfirst)

/-- Witness for C3 at concrete skill lists. -/
theorem C3_normalize_skills_order_witness :
    ((∃ e, e ∈ normalize_skills_list ["python3", "React"] "" ∧ e.canonical_name = "Python") ↔
      (∃ e, e ∈ normalize_skills_list ["React", "python3", "python3"] "" ∧
        e.canonical_name = "Python")) ∧
    (normalize_skills_list ["pandas", "python3", "React"] "").Pairwise
      (fun a b => skillKeyLe a b = true) ∧
    (normalize_skills_list ["pandas", "python3", "React"] "").Pairwise
      (fun a b => pyLower a.canonical_name ≠ pyLower b.canonical_name) ∧
    normalize_skill "python3" "" ∈
      normalize_skills_list (["", "React"] ++ "python3" :: ["java"]) "" :=
  ⟨C3_normalize_skills_order.1 ["python3", "React"] ["React", "python3", "python3"] ""
      (by decide) (by decide) "Python",
    C3_normalize_skills_order.2.1 ["pandas", "python3", "React"] "",
    C3_normalize_skills_order.2.2.1 ["pandas", "python3", "React"] "",
    C3_normalize_skills_order.2.2.2 "" "python3" ["", "React"] ["java"]
      (by decide) (by decide)⟩

end Scout
